import Mathlib

/-!
Verification development for the evaluation orchestration engine of the
`care` repository (TypeScript).  The definitions below are a shallow
embedding of the relevant source files:

* `src/lib/server/eval/rate-limiter.ts`  — `RateLimiter.throttle`
* `src/lib/server/eval/openrouter.ts`    — `OpenRouterClient.generate`
* `src/lib/server/eval/judge.ts`         — `LLMJudge.parseJudgment`
* `src/lib/server/eval/runner.ts`        — `EvalRunner.runEvaluation`
* `statistics.ts` (unnamed part_005)     — descriptive stats, bootstrap CI,
  consistency score

JavaScript numbers are modelled as exact rationals `ℚ`; `Math.sqrt` and
`Math.exp` are modelled by the exact real functions, so the few
square-root/exponential derived quantities live in `ℝ`.  JavaScript strings
are modelled as `List Char` where character-level operations matter and as
Lean `String` where they are opaque identifiers.  External effects
(`Math.random`, `JSON.parse`, the network, the event loop) are modelled as
explicit oracle parameters, quantified universally in the theorems.
-/

namespace Care

/-! ## JavaScript string primitives (used by `judge.ts` and the clients) -/

/-- Whitespace test matching the JavaScript `\s` character class and
`String.prototype.trim` on the common ASCII whitespace characters. -/
def jsWhitespace (c : Char) : Bool :=
  c = ' ' || c = '\t' || c = '\n' || c = '\r' || c = '\x0b' || c = '\x0c'

/-- Model of `String.prototype.trim`: drop whitespace from both ends. -/
def jsTrim (s : List Char) : List Char :=
  ((s.dropWhile jsWhitespace).reverse.dropWhile jsWhitespace).reverse

/-- Auxiliary scanner: position (counted from `i`) of the first occurrence of
`needle` in `hay`, if any. -/
def indexOfAux (needle : List Char) : List Char → ℕ → Option ℕ
  | s, i =>
    if needle.isPrefixOf s then some i
    else
      match s with
      | [] => none
      | _ :: r => indexOfAux needle r (i + 1)

/-- Model of `String.prototype.includes`. -/
def jsIncludes (hay needle : List Char) : Bool :=
  (indexOfAux needle hay 0).isSome

/-- Model of `String.prototype.indexOf` (single argument): first index of
`needle` in `hay`, or `-1` when absent. -/
def jsIndexOf (hay needle : List Char) : ℤ :=
  match indexOfAux needle hay 0 with
  | some i => (i : ℤ)
  | none => -1

/-- Model of `String.prototype.indexOf(needle, start)` with a non-negative
start position. -/
def jsIndexOfFrom (hay needle : List Char) (start : ℕ) : ℤ :=
  match indexOfAux needle (hay.drop start) 0 with
  | some i => (start : ℤ) + i
  | none => -1

/-- Model of `String.prototype.substring`: both arguments are clamped into
`[0, length]` and swapped when out of order (this is how the source's
`substring(jsonStart, -1)` ends up denoting the text before `jsonStart`). -/
def jsSubstring (s : List Char) (a b : ℤ) : List Char :=
  let len : ℤ := s.length
  let a' : ℕ := (max 0 (min a len)).toNat
  let b' : ℕ := (max 0 (min b len)).toNat
  let lo := min a' b'
  let hi := max a' b'
  (s.drop lo).take (hi - lo)

/-- Numeric value of a (non-empty) run of ASCII digits. -/
def digitsToNat (ds : List Char) : ℕ :=
  ds.foldl (fun a c => 10 * a + (c.toNat - 48)) 0

/-- Parse a decimal literal of the shape `\d+(?:\.\d+)?` at the head of the
input, returning its exact rational value and the rest of the input (the
optional fractional part is consumed only when a digit follows the dot,
exactly as the regular expression does).  Mirrors the effect of
`parseFloat` on a capture of that shape. -/
def parseNumberAt (s : List Char) : Option (ℚ × List Char) :=
  let ds := s.takeWhile Char.isDigit
  let rest := s.dropWhile Char.isDigit
  if ds.isEmpty then none
  else
    match rest with
    | '.' :: r2 =>
      let fs := r2.takeWhile Char.isDigit
      let r3 := r2.dropWhile Char.isDigit
      if fs.isEmpty then some ((digitsToNat ds : ℚ), rest)
      else some ((digitsToNat ds : ℚ) + (digitsToNat fs : ℚ) / (10 : ℚ) ^ fs.length, r3)
    | _ => some ((digitsToNat ds : ℚ), rest)

/-- Case-insensitive literal match (the `/i` flag): if the lower-cased input
starts with the lower-cased pattern, return the remaining input. -/
def matchLitCI (pat : List Char) (s : List Char) : Option (List Char) :=
  if (pat.map Char.toLower).isPrefixOf (s.map Char.toLower) then some (s.drop pat.length)
  else none

/-! ## Statistics engine (`statistics.ts`) -/

/-- Arithmetic mean `scores.reduce((sum, s) => sum + s, 0) / scores.length`.
Lean's total division gives `0` on the empty list (JS would give `NaN`);
every use below guards the empty case exactly as the source does. -/
def listMean (scores : List ℚ) : ℚ :=
  scores.sum / scores.length

/-- Model of `Math.min(...scores)` on a non-empty list (the source only
spreads non-empty arrays into `Math.min`/`Math.max`; `0` on `[]`). -/
def listMinimum : List ℚ → ℚ
  | [] => 0
  | a :: r => r.foldl min a

/-- Model of `Math.max(...scores)` on a non-empty list. -/
def listMaximum : List ℚ → ℚ
  | [] => 0
  | a :: r => r.foldl max a

/-- Result record of `calculateConsistencyMetrics`.  The source record also
carries `stdDev = Math.sqrt(variance)` and
`coefficientOfVariation = mean !== 0 ? stdDev / mean : 0`; those two fields
are square-root derived and are modelled by the real-valued projections
`ConsistencyMetrics.stdDev` and `ConsistencyMetrics.coefficientOfVariation`
below, keeping this record exact and computable. -/
structure ConsistencyMetrics where
  mean : ℚ
  variance : ℚ
  min : ℚ
  max : ℚ
deriving Repr, DecidableEq

/-- Shallow embedding of `calculateConsistencyMetrics` (`statistics.ts`):
empty input yields the all-zero record, a singleton yields variance `0`,
otherwise the Bessel-corrected sample variance with denominator `n - 1`. -/
def calculateConsistencyMetrics (scores : List ℚ) : ConsistencyMetrics :=
  if scores.length = 0 then ⟨0, 0, 0, 0⟩
  else if scores.length = 1 then ⟨listMean scores, 0, scores.headI, scores.headI⟩
  else
    let mean := listMean scores
    let variance :=
      (scores.map (fun score => (score - mean) ^ 2)).sum / ((scores.length : ℚ) - 1)
    ⟨mean, variance, listMinimum scores, listMaximum scores⟩

/-- The `stdDev` field of the source record: `Math.sqrt(variance)`. -/
noncomputable def ConsistencyMetrics.stdDev (m : ConsistencyMetrics) : ℝ :=
  Real.sqrt m.variance

/-- The `coefficientOfVariation` field of the source record:
`mean !== 0 ? stdDev / mean : 0`. -/
noncomputable def ConsistencyMetrics.coefficientOfVariation (m : ConsistencyMetrics) : ℝ :=
  if m.mean ≠ 0 then m.stdDev / (m.mean : ℝ) else 0

/-- Shallow embedding of `calculateConsistencyScore` (`statistics.ts`):
`Math.max(0, Math.min(100, 100 * Math.exp(-3 * cv)))`. -/
noncomputable def calculateConsistencyScore (coefficientOfVariation : ℝ) : ℝ :=
  max 0 (min 100 (100 * Real.exp (-3 * coefficientOfVariation)))

/-- Shallow embedding of `resampleWithReplacement` (`statistics.ts`).
`Math.floor(Math.random() * array.length)` is an arbitrary index in
`[0, array.length)`; the random source is modelled by the oracle `rng`
(reduced `% array.length`), consumed positionally starting at `base`. -/
def resampleWithReplacement (rng : ℕ → ℕ) (base : ℕ) (array : List ℚ) : List ℚ :=
  (List.range array.length).map (fun i => array.getD (rng (base + i) % array.length) 0)

/-- Result record of `calculateBootstrapCI`.  `lower`/`upper` are read out
of the sorted bootstrap-means array by plain JavaScript indexing, which
yields `undefined` (here `none`) on an out-of-bounds index. -/
structure ConfidenceInterval where
  lower : Option ℚ
  upper : Option ℚ
  mean : ℚ
deriving Repr, DecidableEq

/-- JavaScript array read `l[i]`: `undefined` (`none`) when `i` is negative
or at least the length. -/
def jsArrayGet (l : List ℚ) (i : ℤ) : Option ℚ :=
  if i < 0 then none else l.get? i.toNat

/-- Default `confidenceLevel = 0.95` of `calculateBootstrapCI`. -/
def defaultConfidenceLevel : ℚ := 95 / 100

/-- Default `iterations = 10000` of `calculateBootstrapCI`. -/
def defaultIterations : ℕ := 10000

/-- The bootstrap means of `calculateBootstrapCI`: `iterations` resample
means, iteration `i` consuming random indices `i * n, …, i * n + n - 1`. -/
def bootstrapMeans (rng : ℕ → ℕ) (scores : List ℚ) (iterations : ℕ) : List ℚ :=
  (List.range iterations).map
    (fun i => listMean (resampleWithReplacement rng (i * scores.length) scores))

/-- The sorted bootstrap means (`bootstrapMeans.sort((a, b) => a - b)`). -/
def sortedBootstrapMeans (rng : ℕ → ℕ) (scores : List ℚ) (iterations : ℕ) : List ℚ :=
  (bootstrapMeans rng scores iterations).insertionSort (· ≤ ·)

/-- Shallow embedding of `calculateBootstrapCI` (`statistics.ts`): early
returns for `n = 0` and `n = 1`, otherwise the `(α/2, 1 − α/2)` percentile
reads from the sorted bootstrap means, with `Math.floor` index arithmetic
and plain (possibly out-of-bounds) array reads. -/
def calculateBootstrapCI (rng : ℕ → ℕ) (scores : List ℚ)
    (confidenceLevel : ℚ) (iterations : ℕ) : ConfidenceInterval :=
  if scores.length = 0 then ⟨some 0, some 0, 0⟩
  else if scores.length = 1 then ⟨some scores.headI, some scores.headI, scores.headI⟩
  else
    let sorted := sortedBootstrapMeans rng scores iterations
    let alpha := 1 - confidenceLevel
    let lowerIndex : ℤ := Int.floor ((iterations : ℚ) * (alpha / 2))
    let upperIndex : ℤ := Int.floor ((iterations : ℚ) * (1 - alpha / 2))
    ⟨jsArrayGet sorted lowerIndex, jsArrayGet sorted upperIndex, listMean scores⟩

/-! ## Rate limiter (`rate-limiter.ts`)

`RateLimiter.throttle` is `async`: its execution splits into atomic
segments at the `await` of the back-off `setTimeout`.  The model below is a
small-step semantics over those segments for one provider key.  JavaScript
arrays are heap objects: `history.filter(...)` allocates a fresh array that
is stored back into `requestHistory`, while a sleeping caller keeps an
alias to the array it filtered and pushes its timestamp into that alias
after waking.  The heap is a list of arrays indexed by allocation order.
Times are rationals (milliseconds). -/

/-- Continuation state of one caller inside `throttle`:  not yet arrived,
parked on the back-off `setTimeout` (holding the wake time and the id of
the aliased history array), or past the final `fn()` call. -/
inductive ThrottleThread where
  | pending
  | sleeping (wake : ℚ) (arrayId : ℕ)
  | finished
deriving Repr, DecidableEq

/-- Global configuration: the array heap, the `requestHistory` entry for the
provider (an array id), the per-caller continuations, the start times of
the `fn()` invocations issued so far, and the current clock. -/
structure LimiterConfig where
  heap : List (List ℚ)
  mapEntry : Option ℕ
  threads : List ThrottleThread
  invocations : List ℚ
  time : ℚ
deriving Repr, DecidableEq

/-- The 60 000 ms window of `throttle`. -/
def limiterWindowMs : ℚ := 60 * 1000

/-- First atomic segment of `throttle(provider, limitRPM, fn)`, run when
caller `i` arrives at time `t`: prune the history to the last 60 s (into a
fresh array), then either invoke `fn` immediately (recording the request
first), or park on the back-off timer computed from the oldest entry (window
full) or from the last entry (even spacing `60000 / limitRPM`). -/
def throttleArrive (limitRPM : ℚ) (cfg : LimiterConfig) (i : ℕ) (t : ℚ) : LimiterConfig :=
  if limitRPM ≤ 0 then
    { cfg with threads := cfg.threads.set i .finished,
               invocations := cfg.invocations ++ [t], time := t }
  else
    let heap1 := if cfg.mapEntry.isSome then cfg.heap else cfg.heap ++ [[]]
    let histId := match cfg.mapEntry with
      | some j => j
      | none => cfg.heap.length
    let history := heap1.getD histId []
    let cutoff := t - limiterWindowMs
    let recent := history.filter (fun ts => cutoff < ts)
    let newId := heap1.length
    let heap2 := heap1 ++ [recent]
    if limitRPM ≤ (recent.length : ℚ) then
      let oldest := recent.headI
      let waitTime := oldest + limiterWindowMs - t
      if 0 < waitTime then
        { heap := heap2, mapEntry := some newId,
          threads := cfg.threads.set i (.sleeping (t + waitTime) newId),
          invocations := cfg.invocations, time := t }
      else
        { heap := heap2.set newId (recent ++ [t]), mapEntry := some newId,
          threads := cfg.threads.set i .finished,
          invocations := cfg.invocations ++ [t], time := t }
    else if recent.length ≠ 0 then
      let lastRequest := recent.getLastD 0
      let minSpacingMs := limiterWindowMs / limitRPM
      let waitTime := minSpacingMs - (t - lastRequest)
      if 0 < waitTime then
        { heap := heap2, mapEntry := some newId,
          threads := cfg.threads.set i (.sleeping (t + waitTime) newId),
          invocations := cfg.invocations, time := t }
      else
        { heap := heap2.set newId (recent ++ [t]), mapEntry := some newId,
          threads := cfg.threads.set i .finished,
          invocations := cfg.invocations ++ [t], time := t }
    else
      { heap := heap2.set newId (recent ++ [t]), mapEntry := some newId,
        threads := cfg.threads.set i .finished,
        invocations := cfg.invocations ++ [t], time := t }

/-- Second atomic segment, run when caller `i`'s back-off timer fires at
time `t`: push `Date.now()` into the aliased array and invoke `fn` — the
window is not re-checked after the sleep. -/
def throttleWake (cfg : LimiterConfig) (i : ℕ) (t : ℚ) (arrayId : ℕ) : LimiterConfig :=
  { cfg with heap := cfg.heap.set arrayId (cfg.heap.getD arrayId [] ++ [t]),
             threads := cfg.threads.set i .finished,
             invocations := cfg.invocations ++ [t], time := t }

/-- One scheduler event `(t, i)`: caller `i` runs its next segment at time
`t`.  The step is refused (`none`) when the event is not realisable by the
event loop: time running backwards, an unknown or finished caller, or a
timer firing before its deadline. -/
def limiterStep (limitRPM : ℚ) (cfg : LimiterConfig) (ev : ℚ × ℕ) : Option LimiterConfig :=
  if ev.1 < cfg.time then none
  else
    match cfg.threads.get? ev.2 with
    | some .pending => some (throttleArrive limitRPM cfg ev.2 ev.1)
    | some (.sleeping wake arrayId) =>
      if ev.1 < wake then none else some (throttleWake cfg ev.2 ev.1 arrayId)
    | _ => none

/-- Run a whole schedule from the initial state (`numThreads` concurrent
callers of `throttle`, empty `requestHistory`). -/
def runLimiterSchedule (limitRPM : ℚ) (numThreads : ℕ)
    (schedule : List (ℚ × ℕ)) : Option LimiterConfig :=
  schedule.foldlM (limiterStep limitRPM)
    ⟨[], none, List.replicate numThreads .pending, [], 0⟩

/-- Number of `fn()` invocations started in the sliding window `(t − 60000, t]`. -/
def invocationsInWindow (cfg : LimiterConfig) (t : ℚ) : ℕ :=
  (cfg.invocations.filter (fun x => t - limiterWindowMs < x && x ≤ t)).length

/-- The schedule refuting the rate-limit guarantee (limit 1 RPM): caller 0
arrives at `t = 0` and invokes immediately; callers 1 and 2 arrive at
`t = 1` and `t = 2`, each sees the full window and parks until `t = 60000`;
both timers fire at `t = 60000`. -/
def c1Schedule : List (ℚ × ℕ) :=
  [(0, 0), (1, 1), (2, 2), (60000, 1), (60000, 2)]

/-! ## OpenRouter client (`openrouter.ts`) -/

/-- Observable step of `OpenRouterClient.generate`: an HTTP request for a
given attempt index, or a back-off sleep of the given duration (ms). -/
inductive GenEvent where
  | request (attempt : ℕ)
  | sleep (ms : ℕ)
deriving Repr, DecidableEq

/-- Failure channel of `generate`: the `GenerationError` thrown after the
last retry, or the (unreachable) trailing `throw` after the loop. -/
inductive GenError where
  | generationError
  | unreachableFallThrough
deriving Repr, DecidableEq

/-- Outcome of one network attempt, as seen by the `try` block: `none` for
any thrown error (fetch rejection, timeout, non-2xx status, malformed
JSON), `some choices` for a parsed response body, where each element is one
`choices[i].message.content`.  An empty `choices` array throws inside the
`try` and is therefore also a retried failure. -/
def attemptOutcome := ℕ → Option (List (List Char))

/-- Retry base delay `retryDelay = 2000` ms. -/
def retryDelayMs : ℕ := 2000

/-- Retry bound `maxRetries = 3` of `generate`. -/
def maxRetries : ℕ := 3

/-- The `for (let attempt = 0; attempt < maxRetries; attempt++)` loop of
`OpenRouterClient.generate`, with the events it emits.  `fuel` is
`maxRetries - attempt`; the `fuel = 0` case is the `throw` after the loop,
which is unreachable because the last failed attempt already throws. -/
def generateLoop (oracle : attemptOutcome) : ℕ → ℕ → List GenEvent × Except GenError (List Char)
  | _, 0 => ([], .error .unreachableFallThrough)
  | attempt, fuel + 1 =>
    let retryPath :=
      if attempt < maxRetries - 1 then
        let delay := retryDelayMs * (attempt + 1)
        let rest := generateLoop oracle (attempt + 1) fuel
        (GenEvent.request attempt :: GenEvent.sleep delay :: rest.1, rest.2)
      else ([GenEvent.request attempt], .error .generationError)
    match oracle attempt with
    | some (content :: _) => ([GenEvent.request attempt], .ok (jsTrim content))
    | some [] => retryPath
    | none => retryPath

/-- Shallow embedding of `OpenRouterClient.generate` for a fixed prompt:
the request/sleep trace and the final result, under the network oracle. -/
def openrouterGenerate (oracle : attemptOutcome) : List GenEvent × Except GenError (List Char) :=
  generateLoop oracle 0 maxRetries

/-- Whether the oracle fails attempt `k` (throws, or returns no choices). -/
def attemptFails (oracle : attemptOutcome) (k : ℕ) : Prop :=
  oracle k = none ∨ oracle k = some []

/-- Number of HTTP requests in an event trace. -/
def requestCount (events : List GenEvent) : ℕ :=
  (events.filter (fun e => match e with | .request _ => true | _ => false)).length

/-! ## Judge (`judge.ts`) -/

/-- One rubric criterion (`types.ts`). -/
structure RubricCriterion where
  name : String
  weight : ℚ
  required : Bool
deriving Repr, DecidableEq

/-- A rubric (`types.ts`): maximum score and ordered criteria. -/
structure Rubric where
  max_score : ℚ
  criteria : List RubricCriterion
deriving Repr, DecidableEq

/-- One entry of `criteria_evaluations` in the judge's JSON schema. -/
structure CriterionScore where
  criterion : List Char
  met : Bool
  score : ℚ
  feedback : List Char
deriving Repr, DecidableEq

/-- A successfully parsed judge JSON object (`JudgeResponseSchema`). -/
structure JudgeSchemaVal where
  criteria_evaluations : List CriterionScore
  overall_reasoning : List Char
  final_score : ℚ
deriving Repr, DecidableEq

/-- The `JudgmentResult` record (`types.ts`). -/
structure JudgmentResult where
  score : ℚ
  max_score : ℚ
  reasoning : List Char
  criteria_scores : List CriterionScore
deriving Repr, DecidableEq

/-- The literal "```json" fence marker. -/
def fenceJsonLit : List Char := ("```json").toList

/-- The literal "```" fence marker. -/
def fenceLit : List Char := ("```").toList

/-- JSON-candidate extraction of `parseJudgment`: the fenced block when a
fence is present (with JavaScript `substring` semantics, including the
swap to the leading text when the closing fence is missing and
`indexOf` returns `-1`), the whole text otherwise. -/
def extractJsonCandidate (text : List Char) : List Char :=
  if jsIncludes text fenceJsonLit then
    let jsonStart := jsIndexOf text fenceJsonLit + 7
    let jsonEnd := jsIndexOfFrom text fenceLit jsonStart.toNat
    jsTrim (jsSubstring text jsonStart jsonEnd)
  else if jsIncludes text fenceLit then
    let jsonStart := jsIndexOf text fenceLit + 3
    let jsonEnd := jsIndexOfFrom text fenceLit jsonStart.toNat
    jsTrim (jsSubstring text jsonStart jsonEnd)
  else text

/-- Character class `[:\s]` of the score regexes. -/
def colonOrWs (c : Char) : Bool := c = ':' || jsWhitespace c

/-- The alternation `(?:out of|\/)` (case-insensitive), returning the rest
of the input after the matched alternative. -/
def matchOutOfOrSlash (s : List Char) : Option (List Char) :=
  match matchLitCI ("out of").toList s with
  | some r => some r
  | none =>
    match s with
    | '/' :: r => some r
    | _ => none

/-- Matcher for `/final[_\s]score[:\s]+(\d+(?:\.\d+)?)/i` anchored at the
current position: literal `final`, one `[_\s]` character, literal `score`,
one or more `[:\s]`, then the captured number. -/
def matchP1At (s : List Char) : Option ℚ := do
  let s1 ← matchLitCI ("final").toList s
  let s2 ← match s1 with
    | c :: r => if c = '_' || jsWhitespace c then some r else none
    | [] => none
  let s3 ← matchLitCI ("score").toList s2
  let sep := s3.takeWhile colonOrWs
  if sep.isEmpty then none
  else
    let s4 := s3.dropWhile colonOrWs
    let (q, _) ← parseNumberAt s4
    some q

/-- Matcher for `/score[:\s]+(\d+(?:\.\d+)?)\s*(?:out of|\/)/i` anchored at
the current position. -/
def matchP2At (s : List Char) : Option ℚ := do
  let s1 ← matchLitCI ("score").toList s
  let sep := s1.takeWhile colonOrWs
  if sep.isEmpty then none
  else
    let s2 := s1.dropWhile colonOrWs
    let (q, s3) ← parseNumberAt s2
    let s4 := s3.dropWhile jsWhitespace
    let _ ← matchOutOfOrSlash s4
    some q

/-- Matcher for `/(\d+(?:\.\d+)?)\s*(?:out of|\/)\s*\d+/i` anchored at the
current position. -/
def matchP3At (s : List Char) : Option ℚ := do
  let (q, s1) ← parseNumberAt s
  let s2 := s1.dropWhile jsWhitespace
  let s3 ← matchOutOfOrSlash s2
  let s4 := s3.dropWhile jsWhitespace
  if (s4.takeWhile Char.isDigit).isEmpty then none else some q

/-- Matcher for `/receives?\s+(\d+(?:\.\d+)?)\s+points/i` anchored at the
current position (the optional `s` backtracks, as the regex engine does). -/
def matchP4At (s : List Char) : Option ℚ :=
  let tail : List Char → Option ℚ := fun s1 => do
    let ws := s1.takeWhile jsWhitespace
    if ws.isEmpty then none
    else
      let s2 := s1.dropWhile jsWhitespace
      let (q, s3) ← parseNumberAt s2
      let ws2 := s3.takeWhile jsWhitespace
      if ws2.isEmpty then none
      else
        let s4 := s3.dropWhile jsWhitespace
        let _ ← matchLitCI ("points").toList s4
        some q
  match matchLitCI ("receive").toList s with
  | none => none
  | some s1 =>
    match s1 with
    | c :: r =>
      if c.toLower = 's' then
        match tail r with
        | some q => some q
        | none => tail s1
      else tail s1
    | [] => tail s1

/-- Left-to-right scan implementing `String.prototype.match`'s leftmost
match for an anchored matcher. -/
def scanFor (matcher : List Char → Option ℚ) : List Char → Option ℚ
  | [] => matcher []
  | c :: r =>
    match matcher (c :: r) with
    | some q => some q
    | none => scanFor matcher r

/-- The fallback loop of `parseJudgment`: try the four score patterns in
order, take `parseFloat` of the first capture, default `0.0`. -/
def extractFallbackScore (text : List Char) : ℚ :=
  match scanFor matchP1At text with
  | some q => q
  | none =>
    match scanFor matchP2At text with
    | some q => q
    | none =>
      match scanFor matchP3At text with
      | some q => q
      | none =>
        match scanFor matchP4At text with
        | some q => q
        | none => 0

/-- The "[JSON parsing failed] " annotation prefixed to the raw-text
excerpt in the fallback reasoning. -/
def parseFailTag : List Char := ("[JSON parsing failed] ").toList

/-- Shallow embedding of `LLMJudge.parseJudgment`: extract the JSON
candidate (optionally from a fenced block) and parse it via the
`JSON.parse` oracle (`none` models a thrown `SyntaxError` or any other
exception in the `try` block); on failure fall back to regex score
extraction over the raw text.  The function is total: every exception of
the `try` block is caught and the `catch` block cannot throw. -/
def parseJudgment (jsonParse : List Char → Option JudgeSchemaVal)
    (judgmentText : List Char) (rubric : Rubric) : JudgmentResult :=
  match jsonParse (extractJsonCandidate judgmentText) with
  | some judgment =>
    { score := judgment.final_score
      max_score := rubric.max_score
      reasoning := judgment.overall_reasoning
      criteria_scores := judgment.criteria_evaluations }
  | none =>
    { score := extractFallbackScore judgmentText
      max_score := rubric.max_score
      reasoning := parseFailTag ++ judgmentText.take 300
      criteria_scores := [] }

/-! ## Evaluation runner (`runner.ts`, `types.ts`)

The orchestrator loop is modelled as a pure fold.  The generation client
and the judge are oracles (`generate` and `grade` are awaited calls whose
results the loop consumes); the `Promise.all` over the trial array
preserves array positions, so the trial list is a `map` over the trial
indices.  Database writes are accumulated in the state; wall-clock-derived
fields (`estimatedTimeRemaining`, timestamps) are outside the modelled
claims and are omitted.  `toFixed` decimal rendering on persisted numbers
is modelled by keeping the exact rationals. -/

/-- A question variant. -/
inductive Variant where
  | explicitV
  | implicitV
deriving Repr, DecidableEq

/-- The string name of a variant, as used in pair keys and stored rows. -/
def variantName : Variant → String
  | .explicitV => "explicit"
  | .implicitV => "implicit"

/-- The per-variant rubrics of a question (`Question.rubrics`). -/
structure QuestionRubrics where
  explicitRubric : Rubric
  implicitRubric : Rubric
deriving Repr, DecidableEq

/-- A question (`types.ts`). -/
structure Question where
  id : String
  pillar_id : ℤ
  truth_hierarchy : ℤ
  weight : ℚ
  explicit_text : String
  implicit_text : String
  reference_answer : Option String
  rubrics : QuestionRubrics
deriving Repr, DecidableEq

/-- Shallow embedding of `getRubricForVariant` (`types.ts`). -/
def getRubricForVariant (question : Question) (variant : Variant) : Rubric :=
  match variant with
  | .explicitV => question.rubrics.explicitRubric
  | .implicitV => question.rubrics.implicitRubric

/-- One generation-client call, as issued by the runner:
`testModel.generate(questionText, 2000, temperature, undefined, seed)`. -/
structure GenRequest where
  prompt : String
  maxTokens : ℕ
  temperature : ℚ
  systemMessage : Option String
  seed : Option ℕ
deriving Repr, DecidableEq

/-- One judge call, as issued by the runner:
`judge.grade(questionText, responseText, rubric, question.reference_answer)`. -/
structure JudgeRequest where
  question : String
  response : String
  rubric : Rubric
  referenceAnswer : Option String
deriving Repr, DecidableEq

/-- The request of trial `idx` (0-based array position; run number is
`idx + 1`): trial 1 is deterministic (`temperature 0, seed 0`), trials
2..N are stochastic (`temperature 0.7`, no seed). -/
def genRequestFor (questionText : String) (idx : ℕ) : GenRequest :=
  let runNum := idx + 1
  let isDeterministicRun := runNum = 1
  { prompt := questionText
    maxTokens := 2000
    temperature := if isDeterministicRun then 0 else 7 / 10
    systemMessage := none
    seed := if isDeterministicRun then some 0 else none }

/-- One entry of the runner's `runs` array. -/
structure TrialResult where
  responseText : String
  score : ℚ
  maxScore : ℚ
  judgeReasoning : List Char
deriving Repr, DecidableEq, Inhabited

/-- The parallel trial fan-out of `runEvaluation` for one
(question, variant) pair: `Promise.all` keeps array positions, so the
result is the map over trial indices of one generation call followed by
one judge call. -/
def runTrials (gen : GenRequest → String) (judge : JudgeRequest → JudgmentResult)
    (questionText : String) (rubric : Rubric) (referenceAnswer : Option String)
    (runsPerQuestion : ℕ) : List TrialResult :=
  (List.range runsPerQuestion).map (fun idx =>
    let responseText := gen (genRequestFor questionText idx)
    let judgment := judge ⟨questionText, responseText, rubric, referenceAnswer⟩
    { responseText := responseText
      score := judgment.score
      maxScore := judgment.max_score
      judgeReasoning := judgment.reasoning })

/-- A persisted `responses` row.  The source stores
`meanScore/stdDev/minScore/maxScore/coefficientOfVariation` rendered with
`toFixed`; here the exact statistics record is kept (`stdDev` and
`coefficientOfVariation` are its real-valued projections). -/
structure AggregatedResponse where
  questionId : String
  questionVariant : String
  responseText : String
  runCount : ℕ
  stats : ConsistencyMetrics
  judgeReasoning : List Char
deriving Repr, DecidableEq

/-- A persisted `responseRuns` row (without the generated ids). -/
structure ResponseRunRow where
  runNumber : ℕ
  responseText : String
  score : ℚ
  maxScore : ℚ
  judgeReasoning : List Char
deriving Repr, DecidableEq

/-- One entry of the runner's `allResponseStats` array.  The source keeps
`cv: stats.coefficientOfVariation`; the exact statistics record the float
derives from is kept instead. -/
structure ResponseStat where
  mean_score : ℚ
  max_score : ℚ
  pillar_id : ℤ
  cvStats : ConsistencyMetrics
deriving Repr, DecidableEq

/-- The progress data persisted to `evaluationRuns` and emitted to the
progress callback after each completed pair (wall-clock ETA omitted). -/
structure ProgressUpdate where
  currentQuestion : ℕ
  currentQuestionId : String
  currentVariant : String
  responsesCompleted : ℕ
  averageScore : ℚ
deriving Repr, DecidableEq, Inhabited

/-- Mutable state threaded through the question × variant loop. -/
structure RunnerState where
  allResponseStats : List ResponseStat
  completedVariants : ℕ
  storedResponses : List AggregatedResponse
  storedRuns : List (String × ResponseRunRow)
  progressUpdates : List ProgressUpdate
  genRequests : List GenRequest
deriving Repr, DecidableEq

/-- The `${question.id}:${variant}` key of a (question, variant) pair. -/
def pairKey (q : Question) (v : Variant) : String :=
  q.id ++ ":" ++ variantName v

/-- The prompt of a pair:
`variant === 'explicit' ? question.explicit_text : question.implicit_text`. -/
def questionTextFor (q : Question) (v : Variant) : String :=
  match v with
  | .explicitV => q.explicit_text
  | .implicitV => q.implicit_text

/-- The running weighted average persisted after each pair:
`Σ mean_score / Σ max_score` over all completed pairs, times 100. -/
def averageScorePercent (stats : List ResponseStat) : ℚ :=
  ((stats.map (·.mean_score)).sum / (stats.map (·.max_score)).sum) * 100

/-- The trial list of one pair (named component of `processPair`). -/
def pairTrials (gen : GenRequest → String) (judge : JudgeRequest → JudgmentResult)
    (runsPerQuestion : ℕ) (q : Question) (v : Variant) : List TrialResult :=
  runTrials gen judge (questionTextFor q v) (getRubricForVariant q v)
    q.reference_answer runsPerQuestion

/-- The statistics over one pair's trial scores (named component of
`processPair`). -/
def pairStats (gen : GenRequest → String) (judge : JudgeRequest → JudgmentResult)
    (runsPerQuestion : ℕ) (q : Question) (v : Variant) : ConsistencyMetrics :=
  calculateConsistencyMetrics ((pairTrials gen judge runsPerQuestion q v).map (·.score))

/-- The `responses` row persisted for one pair (named component of
`processPair`): representative text/reasoning from `runs[0]`. -/
def pairResponse (gen : GenRequest → String) (judge : JudgeRequest → JudgmentResult)
    (runsPerQuestion : ℕ) (q : Question) (v : Variant) : AggregatedResponse :=
  { questionId := q.id
    questionVariant := variantName v
    responseText := (pairTrials gen judge runsPerQuestion q v).headI.responseText
    runCount := runsPerQuestion
    stats := pairStats gen judge runsPerQuestion q v
    judgeReasoning := (pairTrials gen judge runsPerQuestion q v).headI.judgeReasoning }

/-- The `responseRuns` rows persisted for one pair (named component of
`processPair`). -/
def pairRunRows (gen : GenRequest → String) (judge : JudgeRequest → JudgmentResult)
    (runsPerQuestion : ℕ) (q : Question) (v : Variant) : List (String × ResponseRunRow) :=
  (pairTrials gen judge runsPerQuestion q v).enum.map (fun p =>
    (pairKey q v,
      ({ runNumber := p.1 + 1
         responseText := p.2.responseText
         score := p.2.score
         maxScore := p.2.maxScore
         judgeReasoning := p.2.judgeReasoning } : ResponseRunRow)))

/-- The `allResponseStats` entry pushed for one pair (named component of
`processPair`): `mean_score` from the stats, `max_score` from `runs[0]`
(all runs share the rubric's maximum). -/
def pairStat (gen : GenRequest → String) (judge : JudgeRequest → JudgmentResult)
    (runsPerQuestion : ℕ) (q : Question) (v : Variant) : ResponseStat :=
  { mean_score := (pairStats gen judge runsPerQuestion q v).mean
    max_score := (pairTrials gen judge runsPerQuestion q v).headI.maxScore
    pillar_id := q.pillar_id
    cvStats := pairStats gen judge runsPerQuestion q v }

/-- The body of the per-variant loop of `runEvaluation`: skip an already
completed pair, otherwise run all trials, aggregate, persist the response
and its runs, extend `allResponseStats`, bump the counter, and record the
progress update. -/
def processPair (gen : GenRequest → String) (judge : JudgeRequest → JudgmentResult)
    (runsPerQuestion : ℕ) (completedPairs : List String) (state : RunnerState)
    (qIdx : ℕ) (q : Question) (v : Variant) : RunnerState :=
  if completedPairs.contains (pairKey q v) then state
  else
    let newStats := state.allResponseStats ++ [pairStat gen judge runsPerQuestion q v]
    let completed := state.completedVariants + 1
    { allResponseStats := newStats
      completedVariants := completed
      storedResponses := state.storedResponses ++ [pairResponse gen judge runsPerQuestion q v]
      storedRuns := state.storedRuns ++ pairRunRows gen judge runsPerQuestion q v
      progressUpdates := state.progressUpdates ++
        [⟨qIdx + 1, q.id, variantName v, completed, averageScorePercent newStats⟩]
      genRequests := state.genRequests ++
        (List.range runsPerQuestion).map (genRequestFor (questionTextFor q v)) }

/-- The fixed variant order (`['explicit', 'implicit'] as const`). -/
def variantsOrder : List Variant := [.explicitV, .implicitV]

/-- The question × variant loop of `runEvaluation`. -/
def processQuestions (gen : GenRequest → String) (judge : JudgeRequest → JudgmentResult)
    (runsPerQuestion : ℕ) (questions : List Question) (completedPairs : List String)
    (st : RunnerState) : RunnerState :=
  questions.enum.foldl (fun st p =>
    variantsOrder.foldl (fun st v =>
      processPair gen judge runsPerQuestion completedPairs st p.1 p.2 v) st) st

/-- A persisted `evaluationRuns` row (the fields the modelled paths read). -/
structure EvalRunRecord where
  id : String
  modelId : String
  status : String
  totalQuestions : ℕ
  responsesCompleted : ℕ
deriving Repr, DecidableEq

/-- A persisted `responses` row as read back at resume time (with its id,
for the `responseRuns` join). -/
structure StoredResponse where
  id : String
  evaluationRunId : String
  questionId : String
  questionVariant : String
  stats : ConsistencyMetrics
deriving Repr, DecidableEq

/-- The external storage consumed by `runEvaluation`. -/
structure Database where
  evalRuns : List EvalRunRecord
  responses : List StoredResponse
  responseRuns : List (String × ResponseRunRow)
deriving Repr, DecidableEq

/-- Fatal configuration errors of the resume path. -/
inductive RunnerError where
  | runNotFound
  | runAlreadyCompleted
deriving Repr, DecidableEq

/-- Shallow embedding of `EvalRunner.loadPartialEvaluation`: look the run
up, refuse a completed run, and read back its completed responses. -/
def loadPartialEvaluation (db : Database) (evalRunId : String) :
    Except RunnerError (EvalRunRecord × List StoredResponse) :=
  match db.evalRuns.find? (fun r => r.id = evalRunId) with
  | none => .error .runNotFound
  | some evalRun =>
    if evalRun.status = "completed" then .error .runAlreadyCompleted
    else .ok (evalRun, db.responses.filter (fun r => r.evaluationRunId = evalRunId))

/-- Resume seeding of `allResponseStats` from the stored responses:
`mean_score` and `cv` from the response row, `max_score` from the first
`responseRuns` row of the response, `pillar_id` from the question list
(the source indexes with `!`/`[0]`; absent rows are modelled by the
defaults and are excluded by hypothesis where it matters). -/
def seedStats (db : Database) (questions : List Question)
    (rows : List StoredResponse) : List ResponseStat :=
  rows.map (fun r =>
    { mean_score := r.stats.mean
      max_score := ((db.responseRuns.filter (fun p => p.1 = r.id)).map (fun p => p.2.maxScore)).headI
      pillar_id := ((questions.find? (fun q => q.id = r.questionId)).map Question.pillar_id).getD 0
      cvStats := r.stats })

/-- Shallow embedding of the resumable entry of `EvalRunner.runEvaluation`
up to the end of the question × variant loop (the completion-phase
aggregates past the loop are not consumed by the modelled claims): on
resume, load the partial state, mark the completed pairs, seed the stats
and the counter; then run the loop. -/
def runEvaluationModel (gen : GenRequest → String) (judge : JudgeRequest → JudgmentResult)
    (runsPerQuestion : ℕ) (db : Database) (questions : List Question)
    (resumeEvalRunId : Option String) : Except RunnerError RunnerState :=
  match resumeEvalRunId with
  | some evalRunId =>
    match loadPartialEvaluation db evalRunId with
    | .error e => .error e
    | .ok (evalRun, completedResponses) =>
      let completedPairs := completedResponses.map
        (fun r => r.questionId ++ ":" ++ r.questionVariant)
      let initialStats := seedStats db questions completedResponses
      .ok (processQuestions gen judge runsPerQuestion questions completedPairs
        ⟨initialStats, evalRun.responsesCompleted, [], [], [], []⟩)
  | none =>
    .ok (processQuestions gen judge runsPerQuestion questions []
      ⟨[], 0, [], [], [], []⟩)

/-- The stats seeded into `allResponseStats` before the loop: the restored
stats of the resumed run's stored responses, or nothing for a fresh run. -/
def initialSeededStats (db : Database) (questions : List Question)
    (resumeEvalRunId : Option String) : List ResponseStat :=
  match resumeEvalRunId with
  | some evalRunId =>
    seedStats db questions (db.responses.filter (fun r => r.evaluationRunId = evalRunId))
  | none => []

/-- Invariant tying every emitted progress update to the prefix of
`allResponseStats` it was computed from: the `i`-th update's persisted
average is the running weighted average over the `initLen` seeded stats
plus the first `i + 1` newly completed pairs. -/
def averageInvariant (initLen : ℕ) (st : RunnerState) : Prop :=
  st.allResponseStats.length = initLen + st.progressUpdates.length ∧
  ∀ i, i < st.progressUpdates.length →
    (st.progressUpdates.getD i default).averageScore
      = averageScorePercent (st.allResponseStats.take (initLen + i + 1))

/-- The completed-pair keys of a stored run, as computed by the resume path
(`responses` rows of the run, keyed `questionId:questionVariant`). -/
def completedKeys (db : Database) (evalRunId : String) : List String :=
  (db.responses.filter (fun r => r.evaluationRunId = evalRunId)).map
    (fun r => r.questionId ++ ":" ++ r.questionVariant)

/-- All (question, variant) keys of a run, in iteration order. -/
def allPairKeys (questions : List Question) : List String :=
  questions.flatMap (fun q => variantsOrder.map (pairKey q))

/-- The pair key of a stored `responses` row. -/
def respKey (r : AggregatedResponse) : String :=
  r.questionId ++ ":" ++ r.questionVariant

/-- Concrete two-question benchmark used by the witnesses. -/
def witnessQuestions : List Question :=
  [{ id := "q1", pillar_id := 1, truth_hierarchy := 1, weight := 1,
     explicit_text := "E1", implicit_text := "I1", reference_answer := none,
     rubrics := ⟨⟨100, []⟩, ⟨100, []⟩⟩ },
   { id := "q2", pillar_id := 2, truth_hierarchy := 1, weight := 1,
     explicit_text := "E2", implicit_text := "I2", reference_answer := none,
     rubrics := ⟨⟨100, []⟩, ⟨100, []⟩⟩ }]

/-- Concrete stored state of a partially completed run (1 of 4 pairs done,
`q1:explicit` stored) used by the witnesses. -/
def witnessDbPartial : Database :=
  ⟨[⟨"run1", "m1", "running", 2, 1⟩],
   [⟨"resp1", "run1", "q1", "explicit", ⟨80, 0, 80, 80⟩⟩],
   [("resp1", ⟨1, "det", 80, 100, ['d']⟩)]⟩

/-- Concrete stored state of a completed run used by the witnesses. -/
def witnessDbCompleted : Database :=
  ⟨[⟨"run2", "m1", "completed", 2, 4⟩], [], []⟩

/-! ## Theorems -/

/-- C1: the claimed guarantee — `throttle(provider, N, fn)` never lets more
than `N` invocations of `fn` start within any sliding 60-second window, for
arbitrarily many concurrent callers — fails on the code.  With `N = 1`,
caller 0 arrives at `t = 0` and invokes immediately; callers 1 and 2 arrive
at `t = 1` ms and `t = 2` ms, each finds the window full and parks on the
back-off timer; both timers fire at `t = 60000` and, since the window is
not re-checked after the sleep (and the timestamp history is not protected
by any mutual exclusion, contrary to the spec's concurrency section), both
invoke `fn` at `t = 60000`: two invocations inside the window
`(0, 60000]`, exceeding the limit 1.  The schedule is realisable by the
JavaScript event loop (arrivals in time order, timers firing at their
deadlines in registration order). -/
theorem rateLimiter_throttle_window_violation :
    (runLimiterSchedule 1 3 c1Schedule).map LimiterConfig.invocations
        = some [0, 60000, 60000] ∧
    (runLimiterSchedule 1 3 c1Schedule).map (fun cfg => invocationsInWindow cfg 60000)
        = some 2 := by
  constructor <;>
    norm_num [runLimiterSchedule, c1Schedule, limiterStep, throttleArrive, throttleWake,
      limiterWindowMs, invocationsInWindow, List.foldlM, List.filter, List.getD]

/-- C5: `OpenRouterClient.generate` makes at most 3 attempts; after failed
attempt `k` (`k = 1, 2`, counting from 1) it sleeps `2000 · k` ms; after the
3rd consecutive failure it throws a `GenerationError` without issuing a 4th
request; and the first successful attempt returns its trimmed first-choice
content with no further attempts. -/
theorem openrouter_generate_retry_spec (oracle : attemptOutcome) :
    requestCount (openrouterGenerate oracle).1 ≤ 3 ∧
    (attemptFails oracle 0 → attemptFails oracle 1 → attemptFails oracle 2 →
      (openrouterGenerate oracle).1 =
        [.request 0, .sleep 2000, .request 1, .sleep 4000, .request 2] ∧
      (openrouterGenerate oracle).2 = .error .generationError) ∧
    (∀ k content rest, k < maxRetries → (∀ j, j < k → attemptFails oracle j) →
      oracle k = some (content :: rest) →
      (openrouterGenerate oracle).1 =
        ((List.range k).map (fun j => [GenEvent.request j, GenEvent.sleep (2000 * (j + 1))])).flatten
          ++ [GenEvent.request k] ∧
      (openrouterGenerate oracle).2 = .ok (jsTrim content) ∧
      requestCount (openrouterGenerate oracle).1 = k + 1) := by
  refine ⟨?_, ?_, ?_⟩
  · rcases h0 : oracle 0 with _ | (_ | ⟨c0, r0⟩) <;>
      rcases h1 : oracle 1 with _ | (_ | ⟨c1, r1⟩) <;>
        rcases h2 : oracle 2 with _ | (_ | ⟨c2, r2⟩) <;>
          simp [openrouterGenerate, generateLoop, maxRetries, requestCount,
            retryDelayMs, h0, h1, h2, List.filter]
  · intro hf0 hf1 hf2
    rcases hf0 with h0 | h0 <;> rcases hf1 with h1 | h1 <;> rcases hf2 with h2 | h2 <;>
      simp [openrouterGenerate, generateLoop, maxRetries, retryDelayMs, h0, h1, h2]
  · intro k content rest hk hprev hsucc
    rw [show maxRetries = 3 from rfl] at hk
    interval_cases k
    · simp [openrouterGenerate, generateLoop, maxRetries, requestCount, retryDelayMs,
        hsucc, List.filter]
    · rcases hprev 0 (by norm_num) with h0 | h0 <;>
        simp [openrouterGenerate, generateLoop, maxRetries, requestCount, retryDelayMs,
          h0, hsucc, List.filter, List.range_succ]
    · rcases hprev 0 (by norm_num) with h0 | h0 <;>
        rcases hprev 1 (by norm_num) with h1 | h1 <;>
          simp [openrouterGenerate, generateLoop, maxRetries, requestCount, retryDelayMs,
            h0, h1, hsucc, List.filter, List.range_succ]


/-- Witness for C5: with an always-failing network the result is the
`GenerationError`; with a first attempt answering `" hi "` the result is
the trimmed text `"hi"` after a single request. -/
theorem openrouter_generate_retry_witness :
    (openrouterGenerate (fun _ => none)).2 = Except.error GenError.generationError ∧
    (openrouterGenerate (fun _ => some [[' ', 'h', 'i', ' ']])).2 = Except.ok ['h', 'i'] ∧
    requestCount (openrouterGenerate (fun _ => some [[' ', 'h', 'i', ' ']])).1 = 1 := by
  refine ⟨?_, ?_, ?_⟩
  · exact ((openrouter_generate_retry_spec (fun _ => none)).2.1
      (Or.inl rfl) (Or.inl rfl) (Or.inl rfl)).2
  · have h := (openrouter_generate_retry_spec (fun _ => some [[' ', 'h', 'i', ' ']])).2.2 0
      [' ', 'h', 'i', ' '] [] (by norm_num [maxRetries])
      (fun j hj => absurd hj (Nat.not_lt_zero j)) rfl
    rw [h.2.1, show jsTrim [' ', 'h', 'i', ' '] = ['h', 'i'] from by decide]
  · exact ((openrouter_generate_retry_spec (fun _ => some [[' ', 'h', 'i', ' ']])).2.2 0
      [' ', 'h', 'i', ' '] [] (by norm_num [maxRetries])
      (fun j hj => absurd hj (Nat.not_lt_zero j)) rfl).2.2


/-- C4: `parseJudgment` is total by construction (every exception of the
`try` block is modelled by the `JSON.parse` oracle returning `none`, and
the fallback path cannot throw); whenever JSON extraction fails, the score
is the regex fallback extraction, `max_score` is the rubric's maximum,
`criteria_scores` is empty and the reasoning is the annotated raw-text
excerpt; when additionally no score pattern matches, the score is `0`. -/
theorem judge_parseJudgment_fallback_spec
    (jsonParse : List Char → Option JudgeSchemaVal) (text : List Char) (rubric : Rubric)
    (hfail : jsonParse (extractJsonCandidate text) = none) :
    (parseJudgment jsonParse text rubric).max_score = rubric.max_score ∧
    (parseJudgment jsonParse text rubric).criteria_scores = [] ∧
    (parseJudgment jsonParse text rubric).score = extractFallbackScore text ∧
    (parseJudgment jsonParse text rubric).reasoning = parseFailTag ++ text.take 300 ∧
    (scanFor matchP1At text = none → scanFor matchP2At text = none →
      scanFor matchP3At text = none → scanFor matchP4At text = none →
      (parseJudgment jsonParse text rubric).score = 0) := by
  refine ⟨?_, ?_, ?_, ?_, ?_⟩ <;>
    simp [parseJudgment, hfail, extractFallbackScore]
  intro h1 h2 h3 h4
  simp [h1, h2, h3, h4]

/-- Witness for C4: on the unparsable judge output `"hello"` (no JSON, no
score pattern) the grade degrades to score 0 with the annotated excerpt,
the rubric's maximum score and no criteria scores. -/
theorem judge_parseJudgment_fallback_witness :
    (parseJudgment (fun _ => none) ['h', 'e', 'l', 'l', 'o'] ⟨100, []⟩).score = 0 ∧
    (parseJudgment (fun _ => none) ['h', 'e', 'l', 'l', 'o'] ⟨100, []⟩).max_score = 100 ∧
    (parseJudgment (fun _ => none) ['h', 'e', 'l', 'l', 'o'] ⟨100, []⟩).criteria_scores = [] ∧
    (parseJudgment (fun _ => none) ['h', 'e', 'l', 'l', 'o'] ⟨100, []⟩).reasoning
      = parseFailTag ++ ['h', 'e', 'l', 'l', 'o'] := by
  have h := judge_parseJudgment_fallback_spec (fun _ => none) ['h', 'e', 'l', 'l', 'o']
    ⟨100, []⟩ rfl
  refine ⟨h.2.2.2.2 (by decide) (by decide) (by decide) (by decide), h.1, h.2.1, ?_⟩
  rw [h.2.2.2.1, show (['h', 'e', 'l', 'l', 'o'] : List Char).take 300
    = ['h', 'e', 'l', 'l', 'o'] from by decide]


/-- C2: for a processed (not skipped) (question, variant) pair with
`runsPerQuestion = N ≥ 1` trials, trial 1 (array position 0) is the
deterministic call (`temperature 0, seed 0`), trials 2..N are stochastic
(`temperature 0.7`, no seed); the persisted `AggregatedResponse` takes its
representative `responseText` and `judgeReasoning` from trial 1 — the
array position, fixed by `Promise.all`, not the completion order — and its
mean/stdDev/min/max statistics from the scores of all `N` trials. -/
theorem runner_trial_params_and_aggregate
    (gen : GenRequest → String) (judge : JudgeRequest → JudgmentResult)
    (runsPerQuestion : ℕ) (completedPairs : List String) (state : RunnerState)
    (qIdx : ℕ) (q : Question) (v : Variant)
    (hN : 1 ≤ runsPerQuestion)
    (hnew : completedPairs.contains (pairKey q v) = false) :
    (genRequestFor (questionTextFor q v) 0).temperature = 0 ∧
    (genRequestFor (questionTextFor q v) 0).seed = some 0 ∧
    (∀ idx, 1 ≤ idx → (genRequestFor (questionTextFor q v) idx).temperature = 7 / 10 ∧
      (genRequestFor (questionTextFor q v) idx).seed = none) ∧
    (processPair gen judge runsPerQuestion completedPairs state qIdx q v).genRequests
      = state.genRequests
        ++ (List.range runsPerQuestion).map (genRequestFor (questionTextFor q v)) ∧
    (processPair gen judge runsPerQuestion completedPairs state qIdx q v).storedResponses
      = state.storedResponses ++
        [{ questionId := q.id
           questionVariant := variantName v
           responseText := gen (genRequestFor (questionTextFor q v) 0)
           runCount := runsPerQuestion
           stats := calculateConsistencyMetrics
             ((runTrials gen judge (questionTextFor q v) (getRubricForVariant q v)
               q.reference_answer runsPerQuestion).map (fun r => r.score))
           judgeReasoning := (judge
             { question := questionTextFor q v
               response := gen (genRequestFor (questionTextFor q v) 0)
               rubric := getRubricForVariant q v
               referenceAnswer := q.reference_answer }).reasoning }] := by
  obtain ⟨m, rfl⟩ : ∃ m, runsPerQuestion = m + 1 :=
    ⟨runsPerQuestion - 1, (Nat.succ_pred_eq_of_pos hN).symm⟩
  have hnotmem : pairKey q v ∉ completedPairs := by simpa using hnew
  refine ⟨rfl, rfl, ?_, ?_, ?_⟩
  · intro idx hidx
    have h0 : ¬ idx = 0 := by omega
    constructor <;> simp [genRequestFor, h0]
  · simp [processPair, hnotmem]
  · have hhead : (runTrials gen judge (questionTextFor q v) (getRubricForVariant q v)
        q.reference_answer (m + 1)).headI =
      { responseText := gen (genRequestFor (questionTextFor q v) 0)
        score := (judge
          { question := questionTextFor q v
            response := gen (genRequestFor (questionTextFor q v) 0)
            rubric := getRubricForVariant q v
            referenceAnswer := q.reference_answer }).score
        maxScore := (judge
          { question := questionTextFor q v
            response := gen (genRequestFor (questionTextFor q v) 0)
            rubric := getRubricForVariant q v
            referenceAnswer := q.reference_answer }).max_score
        judgeReasoning := (judge
          { question := questionTextFor q v
            response := gen (genRequestFor (questionTextFor q v) 0)
            rubric := getRubricForVariant q v
            referenceAnswer := q.reference_answer }).reasoning } := by
      simp [runTrials, List.range_succ_eq_map]
    simp [processPair, hnotmem, pairResponse, pairTrials, pairStats, hhead]


/-- Witness for C2: two trials on a concrete pair with oracles answering
`"det"`/score 80 to the deterministic request and `"stoch"`/score 90 to the
stochastic one — the stored aggregate carries trial 1's text and reasoning
and the statistics (mean 85, sample variance 50, min 80, max 90) of both
trial scores. -/
theorem runner_trial_params_and_aggregate_witness :
    (processPair (fun r => if r.seed = some 0 then "det" else "stoch")
      (fun jr => { score := if jr.response = "det" then (80 : ℚ) else 90
                   max_score := 100
                   reasoning := if jr.response = "det" then ['d'] else ['s']
                   criteria_scores := [] })
      2 [] ⟨[], 0, [], [], [], []⟩ 0
      { id := "q1", pillar_id := 1, truth_hierarchy := 1, weight := 1,
        explicit_text := "E", implicit_text := "I", reference_answer := none,
        rubrics := ⟨⟨100, []⟩, ⟨100, []⟩⟩ } .explicitV).storedResponses
      = [{ questionId := "q1", questionVariant := "explicit", responseText := "det",
           runCount := 2, stats := ⟨85, 50, 80, 90⟩, judgeReasoning := ['d'] }] := by
  have h := runner_trial_params_and_aggregate
    (fun r => if r.seed = some 0 then "det" else "stoch")
    (fun jr => { score := if jr.response = "det" then (80 : ℚ) else 90
                 max_score := 100
                 reasoning := if jr.response = "det" then ['d'] else ['s']
                 criteria_scores := [] })
    2 [] ⟨[], 0, [], [], [], []⟩ 0
    { id := "q1", pillar_id := 1, truth_hierarchy := 1, weight := 1,
      explicit_text := "E", implicit_text := "I", reference_answer := none,
      rubrics := ⟨⟨100, []⟩, ⟨100, []⟩⟩ } .explicitV (by norm_num) rfl
  rw [h.2.2.2.2]
  simp only [runTrials, genRequestFor, questionTextFor, getRubricForVariant, variantName,
    List.range_succ, List.range_zero, List.map_nil, List.map_cons, List.map_append,
    List.nil_append, List.cons_append, List.append_nil]
  simp
  norm_num [calculateConsistencyMetrics, listMean, listMinimum, listMaximum]


/-- Behaviour of `processPair` on an already-completed pair: a no-op. -/
lemma processPair_of_mem (gen : GenRequest → String) (judge : JudgeRequest → JudgmentResult)
    (n : ℕ) (cp : List String) (st : RunnerState) (qIdx : ℕ) (q : Question) (v : Variant)
    (hc : pairKey q v ∈ cp) :
    processPair gen judge n cp st qIdx q v = st := by
  simp [processPair, hc]

/-- Behaviour of `processPair` on a fresh pair, written out with the named
components. -/
lemma processPair_of_not_mem (gen : GenRequest → String) (judge : JudgeRequest → JudgmentResult)
    (n : ℕ) (cp : List String) (st : RunnerState) (qIdx : ℕ) (q : Question) (v : Variant)
    (hc : pairKey q v ∉ cp) :
    processPair gen judge n cp st qIdx q v =
      { allResponseStats := st.allResponseStats ++ [pairStat gen judge n q v]
        completedVariants := st.completedVariants + 1
        storedResponses := st.storedResponses ++ [pairResponse gen judge n q v]
        storedRuns := st.storedRuns ++ pairRunRows gen judge n q v
        progressUpdates := st.progressUpdates ++
          [⟨qIdx + 1, q.id, variantName v, st.completedVariants + 1,
            averageScorePercent (st.allResponseStats ++ [pairStat gen judge n q v])⟩]
        genRequests := st.genRequests ++
          (List.range n).map (genRequestFor (questionTextFor q v)) } := by
  simp [processPair, hc]

/-- Helper for C6: one loop body step preserves the running-average
invariant. -/
lemma processPair_averageInvariant (gen : GenRequest → String)
    (judge : JudgeRequest → JudgmentResult) (n : ℕ) (cp : List String)
    (st : RunnerState) (qIdx : ℕ) (q : Question) (v : Variant) (initLen : ℕ)
    (h : averageInvariant initLen st) :
    averageInvariant initLen (processPair gen judge n cp st qIdx q v) := by
  by_cases hc : pairKey q v ∈ cp
  · rwa [processPair_of_mem _ _ _ _ _ _ _ _ hc]
  · rw [processPair_of_not_mem _ _ _ _ _ _ _ _ hc]
    obtain ⟨hlen, havg⟩ := h
    constructor
    · simp [hlen]
      omega
    · intro i hi
      simp only [List.length_append, List.length_cons, List.length_nil, Nat.add_zero] at hi
      rcases Nat.lt_succ_iff_lt_or_eq.mp (by omega : i < st.progressUpdates.length + 1)
        with hlt | heq
      · rw [List.getD_append _ _ _ _ hlt,
          List.take_append_of_le_length (by omega : initLen + i + 1 ≤ st.allResponseStats.length)]
        exact havg i hlt
      · subst heq
        rw [List.getD_append_right _ _ _ _ (le_refl _)]
        simp only [Nat.sub_self, List.getD_cons_zero]
        rw [List.take_of_length_le (by simp [hlen])]

/-- Helper for C6: the whole question × variant loop preserves the
running-average invariant. -/
lemma processQuestions_averageInvariant (gen : GenRequest → String)
    (judge : JudgeRequest → JudgmentResult) (n : ℕ) (cp : List String) (initLen : ℕ) :
    ∀ (l : List (ℕ × Question)) (st : RunnerState), averageInvariant initLen st →
      averageInvariant initLen
        (l.foldl (fun st p =>
          variantsOrder.foldl (fun st v => processPair gen judge n cp st p.1 p.2 v) st) st)
  | [], _, h => h
  | p :: rest, st, h => by
    refine processQuestions_averageInvariant gen judge n cp initLen rest _ ?_
    have h1 := processPair_averageInvariant gen judge n cp st p.1 p.2 .explicitV initLen h
    have h2 := processPair_averageInvariant gen judge n cp _ p.1 p.2 .implicitV initLen h1
    simpa [variantsOrder] using h2


/-- Helper: a successful `loadPartialEvaluation` returns exactly the stored
responses of the run. -/
lemma loadPartialEvaluation_ok_rows (db : Database) (evalRunId : String)
    (er : EvalRunRecord) (rows : List StoredResponse)
    (h : loadPartialEvaluation db evalRunId = .ok (er, rows)) :
    rows = db.responses.filter (fun r => r.evaluationRunId = evalRunId) := by
  unfold loadPartialEvaluation at h
  cases hf : db.evalRuns.find? (fun r => r.id = evalRunId) with
  | none => simp [hf] at h
  | some e =>
    simp only [hf] at h
    by_cases hs : e.status = "completed"
    · simp [hs] at h
    · rw [if_neg hs] at h
      simp only [Except.ok.injEq, Prod.mk.injEq] at h
      exact h.2.symm

/-- C6: after every completed pair (including a run resumed after `K`
restored pairs), the persisted/emitted running average equals
`(Σ mean_score / Σ max_score) · 100` over the seeded stats plus the first
`i + 1` newly completed pairs — i.e. over all completed pairs so far; and
on the spec's example pairs (mean 85 / max 100) and (mean 40 / max 50) the
weighted average is `250/3 = 83.33…`, i.e. `83.3 %` up to rounding. -/
theorem runner_running_average_spec
    (gen : GenRequest → String) (judge : JudgeRequest → JudgmentResult)
    (n : ℕ) (db : Database) (questions : List Question) (resumeEvalRunId : Option String)
    (st : RunnerState)
    (h : runEvaluationModel gen judge n db questions resumeEvalRunId = .ok st) :
    (∀ i, i < st.progressUpdates.length →
      (st.progressUpdates.getD i default).averageScore
        = averageScorePercent (st.allResponseStats.take
            ((initialSeededStats db questions resumeEvalRunId).length + i + 1))) ∧
    averageScorePercent
      [⟨85, 100, 1, ⟨85, 0, 85, 85⟩⟩, ⟨40, 50, 1, ⟨40, 0, 40, 40⟩⟩] = 250 / 3 ∧
    |(250 : ℚ) / 3 - 833 / 10| < 1 / 20 := by
  refine ⟨?_, by norm_num [averageScorePercent],
    by rw [show (250 : ℚ) / 3 - 833 / 10 = 1 / 30 by norm_num,
      abs_of_pos (by norm_num : (0 : ℚ) < 1 / 30)]; norm_num⟩
  cases resumeEvalRunId with
  | none =>
    simp only [runEvaluationModel, Except.ok.injEq] at h
    subst h
    have hinv := processQuestions_averageInvariant gen judge n [] 0 questions.enum
      ⟨[], 0, [], [], [], []⟩ ⟨by simp, by simp⟩
    intro i hi
    exact hinv.2 i hi
  | some evalRunId =>
    simp only [runEvaluationModel] at h
    cases hl : loadPartialEvaluation db evalRunId with
    | error e => rw [hl] at h; cases h
    | ok pr =>
      obtain ⟨er, rows⟩ := pr
      have hrows := loadPartialEvaluation_ok_rows db evalRunId er rows hl
      subst hrows
      rw [hl] at h
      simp only [Except.ok.injEq] at h
      subst h
      have hinv := processQuestions_averageInvariant gen judge n
        ((db.responses.filter (fun r => r.evaluationRunId = evalRunId)).map
          (fun r => r.questionId ++ ":" ++ r.questionVariant))
        (seedStats db questions
          (db.responses.filter (fun r => r.evaluationRunId = evalRunId))).length
        questions.enum
        ⟨seedStats db questions
          (db.responses.filter (fun r => r.evaluationRunId = evalRunId)),
          er.responsesCompleted, [], [], [], []⟩
        ⟨by simp, by simp⟩
      intro i hi
      exact hinv.2 i hi


/-- Witness for C6: a fresh one-question run with one trial per pair; the
first emitted progress update's average equals the running weighted
average over the first completed pair, and the spec's example pairs give
`250/3 %`. -/
theorem runner_running_average_witness :
    ((processQuestions (fun r => if r.seed = some 0 then "det" else "stoch")
        (fun jr => { score := if jr.response = "det" then (80 : ℚ) else 90
                     max_score := 100
                     reasoning := if jr.response = "det" then ['d'] else ['s']
                     criteria_scores := [] })
        1 [{ id := "q1", pillar_id := 1, truth_hierarchy := 1, weight := 1,
             explicit_text := "E", implicit_text := "I", reference_answer := none,
             rubrics := ⟨⟨100, []⟩, ⟨100, []⟩⟩ }] [] ⟨[], 0, [], [], [], []⟩).progressUpdates.getD
        0 default).averageScore
      = averageScorePercent
        ((processQuestions (fun r => if r.seed = some 0 then "det" else "stoch")
          (fun jr => { score := if jr.response = "det" then (80 : ℚ) else 90
                       max_score := 100
                       reasoning := if jr.response = "det" then ['d'] else ['s']
                       criteria_scores := [] })
          1 [{ id := "q1", pillar_id := 1, truth_hierarchy := 1, weight := 1,
               explicit_text := "E", implicit_text := "I", reference_answer := none,
               rubrics := ⟨⟨100, []⟩, ⟨100, []⟩⟩ }] [] ⟨[], 0, [], [], [], []⟩).allResponseStats.take
          1) ∧
    averageScorePercent
      [⟨85, 100, 1, ⟨85, 0, 85, 85⟩⟩, ⟨40, 50, 1, ⟨40, 0, 40, 40⟩⟩] = 250 / 3 := by
  have h := runner_running_average_spec
    (fun r => if r.seed = some 0 then "det" else "stoch")
    (fun jr => { score := if jr.response = "det" then (80 : ℚ) else 90
                 max_score := 100
                 reasoning := if jr.response = "det" then ['d'] else ['s']
                 criteria_scores := [] })
    1 ⟨[], [], []⟩
    [{ id := "q1", pillar_id := 1, truth_hierarchy := 1, weight := 1,
       explicit_text := "E", implicit_text := "I", reference_answer := none,
       rubrics := ⟨⟨100, []⟩, ⟨100, []⟩⟩ }] none _ rfl
  refine ⟨h.1 0 ?_, h.2.1⟩
  norm_num [processQuestions, processPair, variantsOrder, List.enum]


/-- Helper for C3: effect of one loop body step on the resume-relevant
observables (counter, stored-response keys, generation calls). -/
lemma processPair_resume_step (gen : GenRequest → String)
    (judge : JudgeRequest → JudgmentResult) (n : ℕ) (cp : List String)
    (st : RunnerState) (qIdx : ℕ) (q : Question) (v : Variant) :
    (processPair gen judge n cp st qIdx q v).completedVariants
      = st.completedVariants + (if pairKey q v ∈ cp then 0 else 1) ∧
    (processPair gen judge n cp st qIdx q v).storedResponses.map respKey
      = st.storedResponses.map respKey
        ++ (if pairKey q v ∈ cp then [] else [pairKey q v]) ∧
    (processPair gen judge n cp st qIdx q v).genRequests.length
      = st.genRequests.length + (if pairKey q v ∈ cp then 0 else n) := by
  by_cases hc : pairKey q v ∈ cp
  · rw [processPair_of_mem _ _ _ _ _ _ _ _ hc]
    simp [hc]
  · rw [processPair_of_not_mem _ _ _ _ _ _ _ _ hc]
    simp only [pairKey] at hc
    simp [hc, pairResponse, respKey, pairKey]

/-- Helper for C3: the loop's cumulative effect — the counter grows by the
number of iterated pair keys outside the completed set, the stored
responses' keys are exactly the iterated keys outside the completed set
(each once, in order), and `n` generation calls are made per processed
pair and none for a skipped one. -/
lemma processQuestions_resume_loop (gen : GenRequest → String)
    (judge : JudgeRequest → JudgmentResult) (n : ℕ) (cp : List String) :
    ∀ (l : List (ℕ × Question)) (st : RunnerState),
      ((l.foldl (fun st p => variantsOrder.foldl
          (fun st v => processPair gen judge n cp st p.1 p.2 v) st) st).completedVariants
        = st.completedVariants +
          (l.flatMap (fun p => variantsOrder.map (pairKey p.2))).countP
            (fun k => !cp.contains k)) ∧
      ((l.foldl (fun st p => variantsOrder.foldl
          (fun st v => processPair gen judge n cp st p.1 p.2 v) st) st).storedResponses.map respKey
        = st.storedResponses.map respKey ++
          (l.flatMap (fun p => variantsOrder.map (pairKey p.2))).filter
            (fun k => !cp.contains k)) ∧
      ((l.foldl (fun st p => variantsOrder.foldl
          (fun st v => processPair gen judge n cp st p.1 p.2 v) st) st).genRequests.length
        = st.genRequests.length + n *
          (l.flatMap (fun p => variantsOrder.map (pairKey p.2))).countP
            (fun k => !cp.contains k))
  | [], st => by simp
  | p :: rest, st => by
    have hrec := processQuestions_resume_loop gen judge n cp rest
      (variantsOrder.foldl (fun st v => processPair gen judge n cp st p.1 p.2 v) st)
    have he := processPair_resume_step gen judge n cp st p.1 p.2 .explicitV
    have hi := processPair_resume_step gen judge n cp
      (processPair gen judge n cp st p.1 p.2 .explicitV) p.1 p.2 .implicitV
    have hfold : variantsOrder.foldl (fun st v => processPair gen judge n cp st p.1 p.2 v) st
        = processPair gen judge n cp
            (processPair gen judge n cp st p.1 p.2 .explicitV) p.1 p.2 .implicitV := by
      simp [variantsOrder]
    refine ⟨?_, ?_, ?_⟩
    · rw [List.foldl_cons, hrec.1, hfold, hi.1, he.1]
      by_cases h1 : pairKey p.2 .explicitV ∈ cp <;>
        by_cases h2 : pairKey p.2 .implicitV ∈ cp <;>
          simp [h1, h2, List.countP_cons, variantsOrder] <;> omega
    · rw [List.foldl_cons, hrec.2.1, hfold, hi.2.1, he.2.1]
      by_cases h1 : pairKey p.2 .explicitV ∈ cp <;>
        by_cases h2 : pairKey p.2 .implicitV ∈ cp <;>
          simp [h1, h2, List.filter_cons, variantsOrder]
    · rw [List.foldl_cons, hrec.2.2, hfold, hi.2.2, he.2.2]
      by_cases h1 : pairKey p.2 .explicitV ∈ cp <;>
        by_cases h2 : pairKey p.2 .implicitV ∈ cp <;>
          simp [h1, h2, List.countP_cons, variantsOrder] <;> ring

/-- Helper for C3: the iterated keys of `questions.enum` are `allPairKeys`. -/
lemma enum_flatMap_pairKeys (questions : List Question) :
    questions.enum.flatMap (fun p => variantsOrder.map (pairKey p.2))
      = allPairKeys questions := by
  rw [allPairKeys]
  have : ∀ (qs : List Question) (k : ℕ),
      (List.enumFrom k qs).flatMap (fun p => variantsOrder.map (pairKey p.2))
        = qs.flatMap (fun q => variantsOrder.map (pairKey q)) := by
    intro qs
    induction qs with
    | nil => intro k; rfl
    | cons q rest ih => intro k; simp [List.enumFrom, ih]
  exact this questions 0

/-- Helper for C3: there are `2 · |questions|` pair keys. -/
lemma allPairKeys_length (questions : List Question) :
    (allPairKeys questions).length = 2 * questions.length := by
  induction questions with
  | nil => rfl
  | cons q rest ih => simp [allPairKeys, variantsOrder] at ih ⊢; omega

/-- Helper for C3: among the pair keys, exactly `|cp|` are marked completed,
when the completed keys are distinct and all occur among the (distinct)
pair keys. -/
lemma countP_contains_of_nodup (keys cp : List String)
    (hkeys : keys.Nodup) (hcp : cp.Nodup) (hsub : ∀ k ∈ cp, k ∈ keys) :
    keys.countP (fun k => cp.contains k) = cp.length := by
  rw [List.countP_eq_length_filter]
  have hperm : List.Perm (keys.filter (fun k => cp.contains k)) cp := by
    refine List.perm_of_nodup_nodup_toFinset_eq (hkeys.filter _) hcp ?_
    ext x
    simp only [List.mem_toFinset, List.mem_filter, List.elem_eq_mem, decide_eq_true_eq]
    exact ⟨fun h => h.2, fun h => ⟨hsub x h, h⟩⟩
  exact hperm.length_eq


/-- C3: resuming a run whose persisted status is `completed` fails with the
`RunAlreadyCompleted` configuration error before any trial executes;
resuming a run with `K` of `M = 2 · |questions|` pairs already completed
skips each completed pair exactly once — no generation call and no stored
response for them, the remaining pairs each processed once — and the final
`responsesCompleted` counter is `M`, not `M + K`. -/
theorem runner_resume_spec
    (gen : GenRequest → String) (judge : JudgeRequest → JudgmentResult)
    (n : ℕ) (db : Database) (questions : List Question) (evalRunId : String) :
    (∀ er, db.evalRuns.find? (fun r => r.id = evalRunId) = some er →
      er.status = "completed" →
      runEvaluationModel gen judge n db questions (some evalRunId)
        = .error .runAlreadyCompleted) ∧
    (∀ er st, db.evalRuns.find? (fun r => r.id = evalRunId) = some er →
      er.status ≠ "completed" →
      runEvaluationModel gen judge n db questions (some evalRunId) = .ok st →
      er.responsesCompleted = (completedKeys db evalRunId).length →
      (completedKeys db evalRunId).Nodup →
      (allPairKeys questions).Nodup →
      (∀ k ∈ completedKeys db evalRunId, k ∈ allPairKeys questions) →
      st.completedVariants = 2 * questions.length ∧
      st.storedResponses.map respKey
        = (allPairKeys questions).filter
            (fun k => !(completedKeys db evalRunId).contains k) ∧
      st.genRequests.length
        = n * (2 * questions.length - (completedKeys db evalRunId).length)) := by
  constructor
  · intro er hfind hstatus
    simp [runEvaluationModel, loadPartialEvaluation, hfind, hstatus]
  · intro er st hfind hstatus hok hK hnodupC hnodupA hsub
    have hload : loadPartialEvaluation db evalRunId
        = .ok (er, db.responses.filter (fun r => r.evaluationRunId = evalRunId)) := by
      simp [loadPartialEvaluation, hfind, hstatus]
    simp only [runEvaluationModel, hload, Except.ok.injEq] at hok
    subst hok
    have hloop := processQuestions_resume_loop gen judge n (completedKeys db evalRunId)
      questions.enum
      ⟨seedStats db questions (db.responses.filter (fun r => r.evaluationRunId = evalRunId)),
        er.responsesCompleted, [], [], [], []⟩
    rw [enum_flatMap_pairKeys] at hloop
    have hcount := countP_contains_of_nodup (allPairKeys questions)
      (completedKeys db evalRunId) hnodupA hnodupC hsub
    have htotal := allPairKeys_length questions
    have hsplit := List.length_eq_countP_add_countP
      (fun k => (completedKeys db evalRunId).contains k) (allPairKeys questions)
    have hfun : (fun a => decide ¬((completedKeys db evalRunId).contains a = true))
        = (fun k => !(completedKeys db evalRunId).contains k) := by
      funext a
      cases h : (completedKeys db evalRunId).contains a <;> rfl
    rw [hfun] at hsplit
    have hrest : (allPairKeys questions).countP
        (fun k => !(completedKeys db evalRunId).contains k)
        = 2 * questions.length - (completedKeys db evalRunId).length := by
      omega
    refine ⟨?_, ?_, ?_⟩
    · exact hloop.1.trans (by dsimp only; rw [hrest]; omega)
    · exact hloop.2.1.trans (by simp)
    · exact hloop.2.2.trans (by dsimp only; rw [List.length_nil, Nat.zero_add, hrest])


/-- Witness for C3: resuming the completed run `run2` fails with
`RunAlreadyCompleted`; resuming `run1` (1 of 4 pairs already completed)
skips the stored `q1:explicit` pair, processes the other three exactly
once (3 generation calls), and ends with `responsesCompleted = 4`, not 5. -/
theorem runner_resume_witness :
    runEvaluationModel (fun _ => "det") (fun _ => ⟨80, 100, ['d'], []⟩) 1
      witnessDbCompleted witnessQuestions (some "run2")
      = .error .runAlreadyCompleted ∧
    (runEvaluationModel (fun _ => "det") (fun _ => ⟨80, 100, ['d'], []⟩) 1
      witnessDbPartial witnessQuestions (some "run1")).map
      (fun st => (st.completedVariants, st.genRequests.length,
        st.storedResponses.map respKey))
      = .ok (4, 3, ["q1:implicit", "q2:explicit", "q2:implicit"]) := by
  constructor
  · exact (runner_resume_spec (fun _ => "det") (fun _ => ⟨80, 100, ['d'], []⟩) 1
      witnessDbCompleted witnessQuestions "run2").1
      ⟨"run2", "m1", "completed", 2, 4⟩ rfl rfl
  · have hok : runEvaluationModel (fun _ => "det") (fun _ => ⟨80, 100, ['d'], []⟩) 1
        witnessDbPartial witnessQuestions (some "run1")
        = .ok (processQuestions (fun _ => "det") (fun _ => ⟨80, 100, ['d'], []⟩) 1
            witnessQuestions (completedKeys witnessDbPartial "run1")
            ⟨seedStats witnessDbPartial witnessQuestions
              (witnessDbPartial.responses.filter (fun r => r.evaluationRunId = "run1")),
              1, [], [], [], []⟩) := rfl
    have h := (runner_resume_spec (fun _ => "det") (fun _ => ⟨80, 100, ['d'], []⟩) 1
      witnessDbPartial witnessQuestions "run1").2 ⟨"run1", "m1", "running", 2, 1⟩ _
      rfl (by decide) hok (by decide) (by decide) (by decide) (by decide)
    rw [hok]
    simp only [Except.map]
    rw [h.1, h.2.1, h.2.2]
    exact congrArg Except.ok (by decide)


/-- Helper shared by C7 and C8: for a non-negative CV the clamps of
`calculateConsistencyScore` are inactive. -/
lemma calculateConsistencyScore_eq_of_nonneg (x : ℝ) (hx : 0 ≤ x) :
    calculateConsistencyScore x = 100 * Real.exp (-3 * x) := by
  have hle : 100 * Real.exp (-3 * x) ≤ 100 := by
    nlinarith [Real.exp_le_one_iff.mpr (by nlinarith : (-3 : ℝ) * x ≤ 0)]
  have hpos : (0 : ℝ) ≤ 100 * Real.exp (-3 * x) := by
    positivity
  rw [calculateConsistencyScore, min_eq_right hle, max_eq_right hpos]

/-- C8: for every `cv ≥ 0`, `calculateConsistencyScore cv` agrees with the
formula `min(100, max(0, 100·e^(−3·cv)))`, lies in `[0, 100]`, equals `100`
exactly at `cv = 0`, and is strictly decreasing on the non-negative axis. -/
theorem consistencyScore_spec (cv : ℝ) (hcv : 0 ≤ cv) :
    calculateConsistencyScore cv = min 100 (max 0 (100 * Real.exp (-3 * cv))) ∧
    calculateConsistencyScore cv ∈ Set.Icc (0 : ℝ) 100 ∧
    (cv = 0 → calculateConsistencyScore cv = 100) ∧
    (∀ b : ℝ, cv < b → calculateConsistencyScore b < calculateConsistencyScore cv) := by
  have heq := calculateConsistencyScore_eq_of_nonneg cv hcv
  have hle : 100 * Real.exp (-3 * cv) ≤ 100 := by
    nlinarith [Real.exp_le_one_iff.mpr (by nlinarith : (-3 : ℝ) * cv ≤ 0)]
  have hpos : (0 : ℝ) ≤ 100 * Real.exp (-3 * cv) := by positivity
  refine ⟨?_, ?_, ?_, ?_⟩
  · rw [heq, max_eq_right hpos, min_eq_right hle]
  · exact ⟨heq ▸ hpos, heq ▸ hle⟩
  · intro h0
    rw [heq, h0]
    simp
  · intro b hb
    rw [heq, calculateConsistencyScore_eq_of_nonneg b (hcv.trans hb.le)]
    have : Real.exp (-3 * b) < Real.exp (-3 * cv) := by
      apply Real.exp_lt_exp.mpr
      nlinarith
    nlinarith

/-- Witness for C8 at `cv = 0` and `b = 1`: the score is within `[0, 100]`,
equals `100` at zero CV, and strictly drops from `cv = 0` to `cv = 1`. -/
theorem consistencyScore_witness :
    calculateConsistencyScore 0 ∈ Set.Icc (0 : ℝ) 100 ∧
    calculateConsistencyScore 0 = 100 ∧
    calculateConsistencyScore 1 < calculateConsistencyScore 0 := by
  have h := consistencyScore_spec 0 le_rfl
  exact ⟨h.2.1, h.2.2.1 rfl, h.2.2.2 1 one_pos⟩


/-- C9: `calculateBootstrapCI` on a single-element list returns
`lower = upper = mean = s` for every random source, confidence level and
iteration count (the `n = 1` branch returns before any resampling); and
with the default confidence level and iteration count, every returned
interval satisfies `lower ≤ upper` (both reads land inside the sorted
bootstrap-means array, which is ascending). -/
theorem bootstrapCI_single_and_ordered :
    (∀ (rng : ℕ → ℕ) (confidenceLevel : ℚ) (iterations : ℕ) (s : ℚ),
      calculateBootstrapCI rng [s] confidenceLevel iterations
        = ⟨some s, some s, s⟩) ∧
    (∀ (rng : ℕ → ℕ) (scores : List ℚ),
      ∃ l u,
        (calculateBootstrapCI rng scores defaultConfidenceLevel defaultIterations).lower
          = some l ∧
        (calculateBootstrapCI rng scores defaultConfidenceLevel defaultIterations).upper
          = some u ∧ l ≤ u) := by
  constructor
  · intro rng confidenceLevel iterations s
    simp [calculateBootstrapCI]
  · intro rng scores
    match scores with
    | [] =>
      exact ⟨0, 0, by simp [calculateBootstrapCI], by simp [calculateBootstrapCI], le_refl 0⟩
    | [s] =>
      exact ⟨s, s, by simp [calculateBootstrapCI], by simp [calculateBootstrapCI], le_refl s⟩
    | a :: b :: rest =>
      have hlen : (sortedBootstrapMeans rng (a :: b :: rest) defaultIterations).length
          = 10000 := by
        rw [sortedBootstrapMeans, List.length_insertionSort, bootstrapMeans,
          List.length_map, List.length_range, defaultIterations]
      have hsorted : (sortedBootstrapMeans rng (a :: b :: rest) defaultIterations).Sorted
          (· ≤ ·) := List.sorted_insertionSort _ _
      have h250 : (250 : ℕ) < (sortedBootstrapMeans rng (a :: b :: rest)
          defaultIterations).length := by omega
      have h9750 : (9750 : ℕ) < (sortedBootstrapMeans rng (a :: b :: rest)
          defaultIterations).length := by omega
      refine ⟨_, _, ?_, ?_, hsorted.rel_get_of_le
        (show (⟨250, h250⟩ : Fin _) ≤ ⟨9750, h9750⟩ by simp)⟩
      · show (calculateBootstrapCI rng (a :: b :: rest) defaultConfidenceLevel
          defaultIterations).lower = _
        rw [calculateBootstrapCI, if_neg (by simp), if_neg (by simp)]
        show jsArrayGet _ (Int.floor ((defaultIterations : ℚ)
          * ((1 - defaultConfidenceLevel) / 2))) = _
        rw [show Int.floor ((defaultIterations : ℚ) * ((1 - defaultConfidenceLevel) / 2))
            = (250 : ℤ) by norm_num [defaultIterations, defaultConfidenceLevel]]
        rw [jsArrayGet, if_neg (by norm_num)]
        exact List.get?_eq_get h250
      · show (calculateBootstrapCI rng (a :: b :: rest) defaultConfidenceLevel
          defaultIterations).upper = _
        rw [calculateBootstrapCI, if_neg (by simp), if_neg (by simp)]
        show jsArrayGet _ (Int.floor ((defaultIterations : ℚ)
          * (1 - (1 - defaultConfidenceLevel) / 2))) = _
        rw [show Int.floor ((defaultIterations : ℚ) * (1 - (1 - defaultConfidenceLevel) / 2))
            = (9750 : ℤ) by norm_num [defaultIterations, defaultConfidenceLevel]]
        rw [jsArrayGet, if_neg (by norm_num)]
        exact List.get?_eq_get h9750


/-- C10: with at least two scores, `calculateBootstrapCI` reads the sorted
bootstrap-means array exactly at the indices
`⌊iterations·α/2⌋` and `⌊iterations·(1 − α/2)⌋` (`α = 1 − confidenceLevel`);
for every confidence level strictly between 0 and 1 both indices are in
bounds (and both reads return a value), but at `confidenceLevel = 1` the
upper index equals `iterations` — one past the end — and the resulting
`undefined` (`none`) is returned as the interval's upper bound. -/
theorem bootstrapCI_percentile_indices
    (rng : ℕ → ℕ) (scores : List ℚ) (confidenceLevel : ℚ) (iterations : ℕ)
    (hn : 2 ≤ scores.length) (hiter : 1 ≤ iterations) :
    (calculateBootstrapCI rng scores confidenceLevel iterations).lower
      = jsArrayGet (sortedBootstrapMeans rng scores iterations)
          (Int.floor ((iterations : ℚ) * ((1 - confidenceLevel) / 2))) ∧
    (calculateBootstrapCI rng scores confidenceLevel iterations).upper
      = jsArrayGet (sortedBootstrapMeans rng scores iterations)
          (Int.floor ((iterations : ℚ) * (1 - (1 - confidenceLevel) / 2))) ∧
    (0 < confidenceLevel → confidenceLevel < 1 →
      0 ≤ Int.floor ((iterations : ℚ) * ((1 - confidenceLevel) / 2)) ∧
      Int.floor ((iterations : ℚ) * ((1 - confidenceLevel) / 2)) < (iterations : ℤ) ∧
      0 ≤ Int.floor ((iterations : ℚ) * (1 - (1 - confidenceLevel) / 2)) ∧
      Int.floor ((iterations : ℚ) * (1 - (1 - confidenceLevel) / 2)) < (iterations : ℤ) ∧
      (calculateBootstrapCI rng scores confidenceLevel iterations).lower.isSome = true ∧
      (calculateBootstrapCI rng scores confidenceLevel iterations).upper.isSome = true) ∧
    (confidenceLevel = 1 →
      Int.floor ((iterations : ℚ) * (1 - (1 - confidenceLevel) / 2)) = (iterations : ℤ) ∧
      (calculateBootstrapCI rng scores confidenceLevel iterations).upper = none) := by
  have hlen : (sortedBootstrapMeans rng scores iterations).length = iterations := by
    rw [sortedBootstrapMeans, List.length_insertionSort, bootstrapMeans,
      List.length_map, List.length_range]
  have hci : calculateBootstrapCI rng scores confidenceLevel iterations
      = ⟨jsArrayGet (sortedBootstrapMeans rng scores iterations)
          (Int.floor ((iterations : ℚ) * ((1 - confidenceLevel) / 2))),
        jsArrayGet (sortedBootstrapMeans rng scores iterations)
          (Int.floor ((iterations : ℚ) * (1 - (1 - confidenceLevel) / 2))),
        listMean scores⟩ := by
    rw [calculateBootstrapCI, if_neg (by omega), if_neg (by omega)]
  have hiq : (0 : ℚ) < (iterations : ℚ) := by
    exact_mod_cast Nat.lt_of_lt_of_le Nat.zero_lt_one hiter
  refine ⟨by rw [hci], by rw [hci], ?_, ?_⟩
  · intro hc0 hc1
    have halpha0 : (0 : ℚ) < 1 - confidenceLevel := by linarith
    have halpha1 : 1 - confidenceLevel < 1 := by linarith
    have hlow0 : (0 : ℤ) ≤ Int.floor ((iterations : ℚ) * ((1 - confidenceLevel) / 2)) := by
      apply Int.floor_nonneg.mpr
      positivity
    have hlow1 : Int.floor ((iterations : ℚ) * ((1 - confidenceLevel) / 2))
        < (iterations : ℤ) := by
      apply Int.floor_lt.mpr
      push_cast
      nlinarith
    have hup0 : (0 : ℤ) ≤ Int.floor ((iterations : ℚ) * (1 - (1 - confidenceLevel) / 2)) := by
      apply Int.floor_nonneg.mpr
      nlinarith
    have hup1 : Int.floor ((iterations : ℚ) * (1 - (1 - confidenceLevel) / 2))
        < (iterations : ℤ) := by
      apply Int.floor_lt.mpr
      push_cast
      nlinarith
    refine ⟨hlow0, hlow1, hup0, hup1, ?_, ?_⟩
    · rw [hci]
      show (jsArrayGet _ _).isSome = true
      rw [jsArrayGet, if_neg (by omega)]
      rw [List.get?_eq_get (by omega : (Int.floor ((iterations : ℚ)
        * ((1 - confidenceLevel) / 2))).toNat < (sortedBootstrapMeans rng scores
          iterations).length)]
      rfl
    · rw [hci]
      show (jsArrayGet _ _).isSome = true
      rw [jsArrayGet, if_neg (by omega)]
      rw [List.get?_eq_get (by omega : (Int.floor ((iterations : ℚ)
        * (1 - (1 - confidenceLevel) / 2))).toNat < (sortedBootstrapMeans rng scores
          iterations).length)]
      rfl
  · intro hc
    subst hc
    have hfl : Int.floor ((iterations : ℚ) * (1 - (1 - 1) / 2)) = (iterations : ℤ) := by
      norm_num
    refine ⟨hfl, ?_⟩
    rw [hci, hfl]
    show jsArrayGet _ ((iterations : ℤ)) = none
    rw [jsArrayGet, if_neg (by omega)]
    apply List.get?_eq_none.mpr
    omega


/-- Witness for C10: with scores `[1, 2]`, 4 iterations and confidence
`0.5`, both percentile reads return a value; with confidence `1` the upper
read is out of bounds and the interval's upper bound is `none`. -/
theorem bootstrapCI_percentile_indices_witness :
    (calculateBootstrapCI (fun _ => 0) [1, 2] (1 / 2) 4).lower.isSome = true ∧
    (calculateBootstrapCI (fun _ => 0) [1, 2] (1 / 2) 4).upper.isSome = true ∧
    (calculateBootstrapCI (fun _ => 0) [1, 2] 1 4).upper = none := by
  have h1 := (bootstrapCI_percentile_indices (fun _ => 0) [1, 2] (1 / 2) 4
    (by norm_num) (by norm_num)).2.2.1 (by norm_num) (by norm_num)
  have h2 := (bootstrapCI_percentile_indices (fun _ => 0) [1, 2] 1 4
    (by norm_num) (by norm_num)).2.2.2 rfl
  exact ⟨h1.2.2.2.2.1, h1.2.2.2.2.2, h2.2⟩


/-- Helper for C7: `foldl min` stays among its inputs. -/
lemma foldl_min_mem (r : List ℚ) : ∀ a : ℚ, r.foldl min a ∈ a :: r := by
  induction r with
  | nil => intro a; simp
  | cons b t ih =>
    intro a
    rw [List.foldl_cons]
    have h := ih (min a b)
    rcases List.mem_cons.mp h with h1 | h1
    · rcases min_choice a b with hab | hab
      · rw [h1, hab]; exact List.mem_cons_self a _
      · rw [h1, hab]; exact List.mem_cons.mpr (Or.inr (List.mem_cons_self b t))
    · exact List.mem_cons.mpr (Or.inr (List.mem_cons.mpr (Or.inr h1)))

/-- Helper for C7: `foldl min` bounds every input from below. -/
lemma foldl_min_le (r : List ℚ) :
    ∀ a : ℚ, r.foldl min a ≤ a ∧ ∀ x ∈ r, r.foldl min a ≤ x := by
  induction r with
  | nil => intro a; simp
  | cons b t ih =>
    intro a
    obtain ⟨h1, h2⟩ := ih (min a b)
    refine ⟨le_trans h1 (min_le_left a b), ?_⟩
    intro x hx
    rcases List.mem_cons.mp hx with rfl | hx
    · exact le_trans h1 (min_le_right a x)
    · exact h2 x hx

/-- Helper for C7: `foldl max` stays among its inputs. -/
lemma foldl_max_mem (r : List ℚ) : ∀ a : ℚ, r.foldl max a ∈ a :: r := by
  induction r with
  | nil => intro a; simp
  | cons b t ih =>
    intro a
    rw [List.foldl_cons]
    have h := ih (max a b)
    rcases List.mem_cons.mp h with h1 | h1
    · rcases max_choice a b with hab | hab
      · rw [h1, hab]; exact List.mem_cons_self a _
      · rw [h1, hab]; exact List.mem_cons.mpr (Or.inr (List.mem_cons_self b t))
    · exact List.mem_cons.mpr (Or.inr (List.mem_cons.mpr (Or.inr h1)))

/-- Helper for C7: `foldl max` bounds every input from above. -/
lemma le_foldl_max (r : List ℚ) :
    ∀ a : ℚ, a ≤ r.foldl max a ∧ ∀ x ∈ r, x ≤ r.foldl max a := by
  induction r with
  | nil => intro a; simp
  | cons b t ih =>
    intro a
    obtain ⟨h1, h2⟩ := ih (max a b)
    refine ⟨le_trans (le_max_left a b) h1, ?_⟩
    intro x hx
    rcases List.mem_cons.mp hx with rfl | hx
    · exact le_trans (le_max_right a x) h1
    · exact h2 x hx

/-- Helper for C7: the sample variance is never negative. -/
lemma calculateConsistencyMetrics_variance_nonneg (scores : List ℚ) :
    0 ≤ (calculateConsistencyMetrics scores).variance := by
  rw [calculateConsistencyMetrics]
  split_ifs with h0 h1
  · exact le_refl 0
  · exact le_refl 0
  · apply div_nonneg
    · apply List.sum_nonneg
      intro x hx
      obtain ⟨s, _, rfl⟩ := List.mem_map.mp hx
      positivity
    · have : 2 ≤ scores.length := by omega
      have : (2 : ℚ) ≤ (scores.length : ℚ) := by exact_mod_cast this
      linarith


/-- Helper for C7: the consistency score of the example CV `1/17` lies in
`(83.75, 83.85)` — i.e. it is `83.8` to one decimal place. -/
lemma consistencyScore_example_cv :
    calculateConsistencyScore (1 / 17 : ℝ) ∈ Set.Ioo (83.75 : ℝ) 83.85 := by
  rw [calculateConsistencyScore_eq_of_nonneg (1 / 17 : ℝ) (by norm_num)]
  have hb := Real.exp_bound (show |(3 : ℝ)/17| ≤ 1 by rw [abs_of_pos] <;> norm_num)
    (show (0 : ℕ) < 4 by norm_num)
  have hS : ∑ m ∈ Finset.range 4, ((3 : ℝ)/17) ^ m / m.factorial = 5861 / 4913 := by
    simp [Finset.sum_range_succ, Nat.factorial]
    norm_num
  rw [hS] at hb
  have habs : |(3 : ℝ)/17| = 3/17 := by rw [abs_of_pos]; norm_num
  rw [habs] at hb
  have hb1 : Real.exp (3/17) ≤ 5861/4913 + (3/17 : ℝ) ^ 4 * (5 / (24 * 4)) := by
    have h := (abs_sub_le_iff.mp hb).1
    norm_num [Nat.factorial] at h ⊢
    linarith
  have hb2 : (5861/4913 : ℝ) - (3/17 : ℝ) ^ 4 * (5 / (24 * 4)) ≤ Real.exp (3/17) := by
    have h := (abs_sub_le_iff.mp hb).2
    norm_num [Nat.factorial] at h ⊢
    linarith
  have hElt : Real.exp (3/17) < (80/67 : ℝ) := lt_of_le_of_lt hb1 (by norm_num)
  have hEgt : (2000/1677 : ℝ) < Real.exp (3/17) := lt_of_lt_of_le (by norm_num) hb2
  have hEpos : (0 : ℝ) < Real.exp (3/17) := Real.exp_pos _
  have hrw : (-3 : ℝ) * (1/17) = -(3/17) := by norm_num
  rw [hrw, Real.exp_neg]
  constructor
  · nlinarith [mul_pos (sub_pos.mpr hElt) (inv_pos.mpr hEpos),
      mul_inv_cancel₀ (ne_of_gt hEpos)]
  · nlinarith [mul_pos (sub_pos.mpr hEgt) (inv_pos.mpr hEpos),
      mul_inv_cancel₀ (ne_of_gt hEpos)]

/-- C7: on a non-empty score list, `calculateConsistencyMetrics` returns
the arithmetic mean; the Bessel-corrected sample variance (denominator
`n − 1`) for `n ≥ 2` and variance `0` for `n ≤ 1`; a standard deviation
that is the non-negative square root of the variance; a coefficient of
variation equal to `stdDev / mean`, defined as `0` when the mean is `0`;
and the list's minimum and maximum.  On the example `[80, 85, 90]` this
gives mean `85`, standard deviation `5`, CV `1/17 ≈ 0.0588`, and a
consistency score in `(83.75, 83.85)`, i.e. `≈ 83.8`. -/
theorem consistencyMetrics_spec (scores : List ℚ) (hne : scores ≠ []) :
    (calculateConsistencyMetrics scores).mean = listMean scores ∧
    (2 ≤ scores.length →
      (calculateConsistencyMetrics scores).variance
        = (scores.map (fun s => (s - listMean scores) ^ 2)).sum
            / ((scores.length : ℚ) - 1)) ∧
    (scores.length ≤ 1 → (calculateConsistencyMetrics scores).variance = 0) ∧
    0 ≤ (calculateConsistencyMetrics scores).stdDev ∧
    (calculateConsistencyMetrics scores).stdDev ^ 2
      = ((calculateConsistencyMetrics scores).variance : ℝ) ∧
    ((calculateConsistencyMetrics scores).mean = 0 →
      (calculateConsistencyMetrics scores).coefficientOfVariation = 0) ∧
    ((calculateConsistencyMetrics scores).mean ≠ 0 →
      (calculateConsistencyMetrics scores).coefficientOfVariation
        = (calculateConsistencyMetrics scores).stdDev
            / ((calculateConsistencyMetrics scores).mean : ℝ)) ∧
    (calculateConsistencyMetrics scores).min ∈ scores ∧
    (∀ s ∈ scores, (calculateConsistencyMetrics scores).min ≤ s) ∧
    (calculateConsistencyMetrics scores).max ∈ scores ∧
    (∀ s ∈ scores, s ≤ (calculateConsistencyMetrics scores).max) ∧
    (scores = [80, 85, 90] →
      (calculateConsistencyMetrics scores).mean = 85 ∧
      (calculateConsistencyMetrics scores).variance = 25 ∧
      (calculateConsistencyMetrics scores).stdDev = 5 ∧
      (calculateConsistencyMetrics scores).coefficientOfVariation = 1 / 17 ∧
      calculateConsistencyScore (calculateConsistencyMetrics scores).coefficientOfVariation
        ∈ Set.Ioo (83.75 : ℝ) 83.85) := by
  obtain ⟨a, t, rfl⟩ := List.exists_cons_of_ne_nil hne
  refine ⟨?_, ?_, ?_, Real.sqrt_nonneg _, ?_, ?_, ?_, ?_, ?_, ?_, ?_, ?_⟩
  · rw [calculateConsistencyMetrics]
    split_ifs with h0 h1
    · exact absurd h0 (by simp)
    · rfl
    · rfl
  · intro h2
    rw [calculateConsistencyMetrics]
    split_ifs with h0 h1
    · exact absurd h0 (by simp)
    · omega
    · rfl
  · intro h1
    rw [calculateConsistencyMetrics]
    split_ifs with h0 h1'
    · rfl
    · rfl
    · omega
  · exact Real.sq_sqrt (by exact_mod_cast calculateConsistencyMetrics_variance_nonneg _)
  · intro h0
    rw [ConsistencyMetrics.coefficientOfVariation, if_neg (by simp [h0])]
  · intro h0
    rw [ConsistencyMetrics.coefficientOfVariation, if_pos h0]
  · rw [calculateConsistencyMetrics]
    split_ifs with h0 h1
    · exact absurd h0 (by simp)
    · show (a :: t).headI ∈ a :: t
      simp
    · show listMinimum (a :: t) ∈ a :: t
      rw [listMinimum]
      exact foldl_min_mem t a
  · intro s hs
    rw [calculateConsistencyMetrics]
    split_ifs with h0 h1
    · exact absurd h0 (by simp)
    · obtain rfl : t = [] := List.length_eq_zero.mp (by simpa using h1)
      simp only [List.mem_singleton] at hs
      subst hs
      exact le_refl _
    · show listMinimum (a :: t) ≤ s
      rw [listMinimum]
      rcases List.mem_cons.mp hs with rfl | hs
      · exact (foldl_min_le t s).1
      · exact (foldl_min_le t a).2 s hs
  · rw [calculateConsistencyMetrics]
    split_ifs with h0 h1
    · exact absurd h0 (by simp)
    · show (a :: t).headI ∈ a :: t
      simp
    · show listMaximum (a :: t) ∈ a :: t
      rw [listMaximum]
      exact foldl_max_mem t a
  · intro s hs
    rw [calculateConsistencyMetrics]
    split_ifs with h0 h1
    · exact absurd h0 (by simp)
    · obtain rfl : t = [] := List.length_eq_zero.mp (by simpa using h1)
      simp only [List.mem_singleton] at hs
      subst hs
      exact le_refl _
    · show s ≤ listMaximum (a :: t)
      rw [listMaximum]
      rcases List.mem_cons.mp hs with rfl | hs
      · exact (le_foldl_max t s).1
      · exact (le_foldl_max t a).2 s hs
  · intro hex
    have hm : calculateConsistencyMetrics (a :: t) = ⟨85, 25, 80, 90⟩ := by
      rw [hex]
      norm_num [calculateConsistencyMetrics, listMean, listMinimum, listMaximum]
    have hsd : (calculateConsistencyMetrics (a :: t)).stdDev = 5 := by
      rw [ConsistencyMetrics.stdDev, hm]
      rw [show ((25 : ℚ) : ℝ) = 5 ^ 2 by norm_num, Real.sqrt_sq (by norm_num)]
    have hcv : (calculateConsistencyMetrics (a :: t)).coefficientOfVariation = 1 / 17 := by
      rw [ConsistencyMetrics.coefficientOfVariation, if_pos (by rw [hm]; norm_num), hsd,
        hm]
      norm_num
    exact ⟨by rw [hm], by rw [hm], hsd, hcv, hcv ▸ consistencyScore_example_cv⟩


/-- Witness for C7 at the spec's example scores `[80, 85, 90]`:
mean `85`, sample variance `25`, standard deviation `5`, CV `1/17`
(`≈ 0.0588`), consistency score `≈ 83.8`. -/
theorem consistencyMetrics_witness :
    (calculateConsistencyMetrics [80, 85, 90]).mean = 85 ∧
    (calculateConsistencyMetrics [80, 85, 90]).variance = 25 ∧
    (calculateConsistencyMetrics [80, 85, 90]).stdDev = 5 ∧
    (calculateConsistencyMetrics [80, 85, 90]).coefficientOfVariation = 1 / 17 ∧
    calculateConsistencyScore
        (calculateConsistencyMetrics [80, 85, 90]).coefficientOfVariation
      ∈ Set.Ioo (83.75 : ℝ) 83.85 := by
  exact (consistencyMetrics_spec [80, 85, 90]
    (by decide)).2.2.2.2.2.2.2.2.2.2.2 rfl

end Care
